import Mathlib

/-!
Verification of the blogger-automation repository.

The development embeds, as executable Lean definitions:
  * the hardened publish handler of src/api/publish.js (request validation,
    environment validation, Gemini content generation, HTML sanitization,
    Blogger publishing, rate limiting, and the error-to-status mapping);
  * the two simpler handler variants (src/unnamed/part_000 lines 184-252 and
    src/unnamed/part_001 lines 1-206);
  * the image URL collector of src/unnamed/part_000 (collectImages).

External HTTP services (Gemini, Blogger) are modelled as oracle values that
the handler consumes; outbound calls are recorded in an explicit trace so
that properties of the form "no outbound call is made" are statable.
-/

/-! ## String constants taken verbatim from the source -/

def mGET : String := "GET"
def mPOST : String := "POST"
def mOPTIONS : String := "OPTIONS"

def msgTitleMin : String := "Title must be at least 5 characters long"
def msgTitleMax : String := "Title must be less than 200 characters"
def msgTagsArray : String := "Tags must be an array"
def msgTagsMax : String := "Maximum 10 tags allowed"
def msgMissingEnvPrefix : String := "Missing environment variables: "
def substrMissingEnv : String := "Missing environment variables"
def substrTitleMustBe : String := "Title must be"
def msgGeminiEmpty : String := "Gemini returned empty content"
def errServerConfig : String := "Server configuration error"
def errValidation : String := "Validation error"
def errTimeout : String := "Request timeout"
def msgTimeout : String := "Content generation took too long. Please try again."
def errRateLimit : String := "Rate limit exceeded"
def msgRateLimit : String := "Too many requests. Please try again later."
def errQuota : String := "API quota exceeded"
def msgQuota : String := "Gemini API quota has been exceeded. Please try again later."
def substrQuota : String := "quota"
def errPublishingFailed : String := "Publishing failed"
def errMethodNA : String := "Method not allowed"
def errInvalidJson : String := "Invalid JSON body"
def msgLimiter : String := "Too many requests, please try again later."
def msgPubOK : String := "Blog post published successfully"
def msgDraftOK : String := "Blog post saved as draft"
def nAbortError : String := "AbortError"
def nECONNABORTED : String := "ECONNABORTED"

def vGEMINI : String := "GEMINI_API_KEY"
def vCLIENT_ID : String := "CLIENT_ID"
def vCLIENT_SECRET : String := "CLIENT_SECRET"
def vREFRESH_TOKEN : String := "REFRESH_TOKEN"
def vBLOG_ID : String := "BLOG_ID"
def vREDIRECT_URI : String := "REDIRECT_URI"

/-- Whether the first list is an initial segment of the second. -/
def listStarts : List Char → List Char → Bool
  | [], _ => true
  | _ :: _, [] => false
  | p :: ps, c :: cs => p == c && listStarts ps cs

/-- Whether the pattern occurs anywhere in the character list. -/
def occurs (pat : List Char) : List Char → Bool
  | [] => pat.isEmpty
  | c :: rest => listStarts pat (c :: rest) || occurs pat rest

/-- JavaScript substring test, as used by String.prototype.includes in the
source's error mapping (e.g. err.message.includes of a fixed pattern). -/
def containsSub (s pat : String) : Bool :=
  occurs pat.data s.data

/-- String.prototype.startsWith. -/
def strStarts (s pat : String) : Bool :=
  listStarts pat.data s.data

/-- ASCII lower-casing of a string, as the DOM applies to tag and attribute
names. -/
def lowerStr (s : String) : String :=
  String.mk (s.data.map Char.toLower)

/-- String.prototype.trim: whitespace stripped from both ends. -/
def jsTrim (s : String) : String :=
  String.mk (((s.data.dropWhile Char.isWhitespace).reverse.dropWhile
    Char.isWhitespace).reverse)

/-! ## A small JavaScript value type for the loosely typed tags field -/

/-- JavaScript values, as far as the handler inspects them: the tags field of
the request body can be absent, null, a boolean, a number, a string or an
array, and validateRequest branches on truthiness and Array.isArray. -/
inductive JSVal where
  | undef
  | nullv
  | boolv (b : Bool)
  | num (n : Int)
  | str (s : String)
  | arr (xs : List JSVal)
deriving Repr

/-- JavaScript truthiness of a JSVal. -/
def JSVal.truthy : JSVal → Bool
  | .undef => false
  | .nullv => false
  | .boolv b => b
  | .num n => decide (n ≠ 0)
  | .str s => !(s == "")
  | .arr _ => true

/-- Array.isArray. -/
def JSVal.isArray : JSVal → Bool
  | .arr _ => true
  | _ => false

/-- Whether the value is the JavaScript undefined (destructuring defaults
fire exactly on undefined). -/
def JSVal.isUndef : JSVal → Bool
  | .undef => true
  | _ => false

/-- The .length property where it exists (arrays and strings); 0 elsewhere
(the source only reads .length after establishing the value is an array). -/
def JSVal.arrLen : JSVal → Nat
  | .arr xs => xs.length
  | .str s => s.length
  | _ => 0

/-! ## Request and validated request (src/api/publish.js lines 49-69) -/

/-- The destructured request body of the hardened handler: title is absent or
a string, tags is any JavaScript value (undef when absent), publish is absent
or a boolean. -/
structure ReqBody where
  title : Option String
  tags : JSVal
  publish : Option Bool
deriving Repr

structure ValidReq where
  title : String
  tags : JSVal
  publish : Bool
deriving Repr

/-- validateRequest of src/api/publish.js lines 49-69: destructuring defaults
(tags to an empty array, publish to true), then the title falsiness and
trimmed-length checks, then the Array.isArray and length checks on tags. -/
def validateRequest (body : ReqBody) : Except String ValidReq :=
  let tags := if body.tags.isUndef then JSVal.arr [] else body.tags
  let publish := body.publish.getD true
  match body.title with
  | none => Except.error msgTitleMin
  | some t =>
    if t == "" || decide ((jsTrim t).length < 5) then Except.error msgTitleMin
    else if decide (200 < (jsTrim t).length) then Except.error msgTitleMax
    else if tags.truthy && !tags.isArray then Except.error msgTagsArray
    else if tags.truthy && decide (10 < tags.arrLen) then Except.error msgTagsMax
    else Except.ok ⟨jsTrim t, tags, publish⟩

/-! ## Environment validation (src/api/publish.js lines 31-46) -/

/-- The six required configuration variables; none means the variable is
unset, and an empty string is falsy exactly as in process.env lookups. -/
structure Env where
  gemini_api_key : Option String
  client_id : Option String
  client_secret : Option String
  refresh_token : Option String
  blog_id : Option String
  redirect_uri : Option String
deriving Repr, DecidableEq

def envPresent : Option String → Bool
  | none => false
  | some s => !(s == "")

/-- The missing-variable filter of validateEnvironment, in source order. -/
def missingVars (e : Env) : List String :=
  [(vGEMINI, e.gemini_api_key), (vCLIENT_ID, e.client_id),
   (vCLIENT_SECRET, e.client_secret), (vREFRESH_TOKEN, e.refresh_token),
   (vBLOG_ID, e.blog_id), (vREDIRECT_URI, e.redirect_uri)].filterMap
    (fun p => if envPresent p.2 then none else some p.1)

/-- validateEnvironment of src/api/publish.js lines 31-46. -/
def validateEnvironment (e : Env) : Except String Unit :=
  let missing := missingVars e
  if missing.isEmpty then Except.ok ()
  else Except.error (msgMissingEnvPrefix ++ String.intercalate ", " missing)

/-! ## Gemini response shape and extraction (src/api/publish.js lines 104-144) -/

structure GemPart where
  text : Option String
deriving Repr, DecidableEq

structure GemContent where
  parts : Option (List GemPart)
deriving Repr, DecidableEq

structure GemCandidate where
  content : Option GemContent
deriving Repr, DecidableEq

structure GemBody where
  candidates : Option (List GemCandidate)
deriving Repr, DecidableEq

/-- The optional chain data.candidates[0].content.parts[0].text with every
step guarded, as written in src/api/publish.js line 134. -/
def extractText (b : GemBody) : Option String :=
  (((b.candidates.bind List.head?).bind GemCandidate.content).bind
    GemContent.parts).bind (fun ps => ps.head?.bind GemPart.text)

/-! ## JavaScript error values as inspected by the catch block -/

structure RespInfo where
  status : Nat
  errMsg : Option String
deriving Repr, DecidableEq

/-- The parts of a thrown error that the catch block of the handler reads:
message, name, code, and the optional axios response with a status and a
data.error.message. -/
structure JSError where
  message : String
  name : Option String
  code : Option String
  response : Option RespInfo
deriving Repr, DecidableEq

def strError (msg : String) : JSError := ⟨msg, none, none, none⟩

/-- Outcome of the outbound Gemini call, supplied as an oracle. -/
inductive GemOutcome where
  | ok (body : GemBody)
  | fail (e : JSError)
deriving Repr, DecidableEq

/-- generateContentWithGemini of src/api/publish.js lines 72-144: a failing
call rethrows the axios error; a 2xx body with a falsy extracted text (absent
path or empty string) throws the empty-content error. -/
def generateContentWithGemini (gem : GemOutcome) : Except JSError String :=
  match gem with
  | .fail e => Except.error e
  | .ok b =>
    match extractText b with
    | none => Except.error (strError msgGeminiEmpty)
    | some h => if h == "" then Except.error (strError msgGeminiEmpty) else Except.ok h

/-! ## Blogger publishing (src/api/publish.js lines 158-185) -/

structure BlogPost where
  id : String
  url : String
  status : String
  published : String
  title : String
deriving Repr, DecidableEq

inductive BlogOutcome where
  | ok (post : BlogPost)
  | fail (e : JSError)
deriving Repr, DecidableEq

/-- publishToBlogger of src/api/publish.js lines 158-185: one authenticated
posts.insert call whose result is returned unchanged. -/
def publishToBlogger (blog : BlogOutcome) : Except JSError BlogPost :=
  match blog with
  | .ok post => Except.ok post
  | .fail e => Except.error e

/-! ## Rate limiter -/

/-- Window length of the limiter configuration, src/api/publish.js line 9:
15 * 60 * 1000 milliseconds. -/
def limiterWindowMs : Nat := 15 * 60 * 1000

/-- Request cap of the limiter configuration, src/api/publish.js line 10. -/
def limiterMax : Nat := 5

/-- Per-client limiter store: client identity, window start, hit count. -/
def LimiterState : Type := List (String × Nat × Nat)

def limGet : LimiterState → String → Option (Nat × Nat)
  | [], _ => none
  | (c, s, n) :: r, client => if c == client then some (s, n) else limGet r client

def limSet : LimiterState → String → Nat × Nat → LimiterState
  | [], client, v => [(client, v.1, v.2)]
  | (c, s, n) :: r, client, v =>
    if c == client then (client, v.1, v.2) :: r else (c, s, n) :: limSet r client v

/-- Modelled from the spec: the express-rate-limit middleware applied in
src/api/publish.js lines 8-28 is a third-party package whose code is not in
the repository; the spec describes it as a fixed window of 15 minutes per
client identity capped at 5 requests. A hit increments the client's counter
inside the current window (resetting it when the window has elapsed) and is
allowed exactly when the incremented count stays within the cap. -/
def limiterHit (st : LimiterState) (client : String) (now : Nat) :
    Bool × LimiterState :=
  match limGet st client with
  | none => (true, limSet st client (now, 1))
  | some (start, cnt) =>
    if now < start + limiterWindowMs then
      (decide (cnt + 1 ≤ limiterMax), limSet st client (start, cnt + 1))
    else (true, limSet st client (now, 1))

/-! ## Responses and outbound call traces -/

/-- The JSON fields that any of the handler responses may carry; a field the
concrete response body does not mention is none. -/
structure Response where
  status : Nat
  error : Option String
  message : Option String
  retryable : Option Bool
  allowed : Option (List String)
  success : Option Bool
  postId : Option String
  postUrl : Option String
  postStatus : Option String
  published : Option String
  titleOut : Option String
  titleLength : Option Nat
  tagCount : Option Nat
  contentLength : Option Nat
deriving Repr, DecidableEq

def emptyResponse : Response :=
  ⟨0, none, none, none, none, none, none, none, none, none, none, none, none, none⟩

instance : Inhabited Response := ⟨emptyResponse⟩

/-- Outbound calls of the hardened handler, in order: the Gemini generation
call, then the Blogger publish call with its exact payload. -/
inductive Call where
  | gen
  | publishPost (title : String) (content : String) (tags : JSVal) (publishFlag : Bool)
deriving Repr

/-! ## The error-to-response mapping (src/api/publish.js lines 261-316) -/

def quotaFlag (e : JSError) : Bool :=
  match e.response with
  | none => false
  | some r =>
    match r.errMsg with
    | none => false
    | some m => containsSub m substrQuota

def respStatusOr500 (e : JSError) : Nat :=
  match e.response with
  | none => 500
  | some r => if r.status == 0 then 500 else r.status

def fallbackMsg (e : JSError) : String :=
  let m2 := if e.message == "" then errPublishingFailed else e.message
  match e.response with
  | none => m2
  | some r =>
    match r.errMsg with
    | none => m2
    | some m => if m == "" then m2 else m

def retryFlag (e : JSError) : Bool :=
  match e.response with
  | none => true
  | some r => !(r.status == 400 || r.status == 401 || r.status == 403)

/-- The catch block of the hardened handler, lines 261-316: the five special
branches in source order, then the default response whose status falls back
to 500 and whose retryable flag excludes 400, 401 and 403. -/
def mapError (e : JSError) : Response :=
  if containsSub e.message substrMissingEnv then
    { emptyResponse with
      status := 500
      error := some errServerConfig
      message := some e.message }
  else if containsSub e.message substrTitleMustBe then
    { emptyResponse with
      status := 400
      error := some errValidation
      message := some e.message }
  else if e.name == some nAbortError || e.code == some nECONNABORTED then
    { emptyResponse with
      status := 504
      error := some errTimeout
      message := some msgTimeout }
  else if e.response.map RespInfo.status == some 429 then
    { emptyResponse with
      status := 429
      error := some errRateLimit
      message := some msgRateLimit }
  else if quotaFlag e then
    { emptyResponse with
      status := 429
      error := some errQuota
      message := some msgQuota }
  else
    { emptyResponse with
      status := respStatusOr500 e
      error := some errPublishingFailed
      message := some (fallbackMsg e)
      retryable := some (retryFlag e) }

/-! ## HTML sanitizer

src/api/publish.js lines 147-155 delegate to DOMPurify.sanitize with a fixed
configuration. DOMPurify itself (and the browser HTML parsing it relies on)
is a third-party library whose code is not in the repository, so the
sanitization pass is modelled from the spec over parsed documents: HTML is
represented as a tree of text and element nodes, and sanitization walks the
tree applying the configured allow-lists and deny-lists. -/

/-- ALLOWED_TAGS of the DOMPurify configuration, src/api/publish.js line 149. -/
def allowedTags : List String :=
  ["h2", "h3", "h4", "p", "ul", "ol", "li", "strong", "em", "b", "i", "a", "br"]

/-- FORBID_TAGS of the DOMPurify configuration, line 152. -/
def forbidTags : List String :=
  ["script", "style", "iframe", "object", "embed", "form", "input", "button"]

/-- Dangerous tags whose text content is dropped along with the tag (the
spec: scripts, styles and iframes are always removed); for other disallowed
tags content is preserved, as the spec requires. -/
def forbidContents : List String := ["script", "style", "iframe"]

/-- ALLOWED_ATTR of the DOMPurify configuration, line 150. -/
def allowedAttrs : List String := ["href", "target", "rel"]

/-- FORBID_ATTR of the DOMPurify configuration, line 153. -/
def forbidAttrs : List String := ["onclick", "onerror", "onload", "style", "class"]

def aHref : String := "href"
def strOn : String := "on"
def tagScript : String := "script"
def tagIframe : String := "iframe"
def schemeHttp : String := "http:"
def schemeHttps : String := "https:"
def schemeMailto : String := "mailto:"
def schemeFtp : String := "ftp:"
def schemeTel : String := "tel:"

/-- Characters of the class inside the third alternative of
ALLOWED_URI_REGEXP (line 151), after case folding. -/
def uriSetChar (c : Char) : Bool :=
  c.isLower || c == '+' || c == '.' || c == '-'

/-- ALLOWED_URI_REGEXP of src/api/publish.js line 151: a value is accepted
when (case-insensitively) it starts with one of the http, https, mailto, ftp
or tel schemes, or its first character is not a letter, or it starts with a
run of scheme-name characters that is not followed by a colon. -/
def uriAllowed (v : String) : Bool :=
  let l := lowerStr v
  let cs := l.data
  (strStarts l schemeHttp || strStarts l schemeHttps || strStarts l schemeMailto
    || strStarts l schemeFtp || strStarts l schemeTel)
  || (match cs with
      | [] => false
      | c :: _ => !c.isLower)
  || (match cs with
      | [] => false
      | c :: _ =>
        uriSetChar c &&
          (match cs.dropWhile uriSetChar with
           | [] => true
           | d :: _ => !(d == ':')))

/-- One attribute under the configured policy: keep it (with the DOM's
lower-cased name) when the name is allow-listed and not deny-listed and, for
href, the value passes the URI allow-pattern; drop it otherwise. -/
def keepAttr (p : String × String) : Option (String × String) :=
  let n := lowerStr p.1
  if decide (n ∈ allowedAttrs) && !decide (n ∈ forbidAttrs)
      && (!(n == aHref) || uriAllowed p.2) then some (n, p.2)
  else none

def filterAttrs (attrs : List (String × String)) : List (String × String) :=
  attrs.filterMap keepAttr

mutual
/-- A parsed HTML node: a text node or an element node. -/
inductive HNode where
  | text (s : String)
  | elem (tag : String) (attrs : List (String × String)) (children : HForest)
deriving Repr
/-- A parsed HTML document fragment: a sequence of sibling nodes. -/
inductive HForest where
  | nil
  | cons (n : HNode) (f : HForest)
deriving Repr
end

/-- Concatenation of document fragments. -/
def fapp : HForest → HForest → HForest
  | .nil, g => g
  | .cons n f, g => .cons n (fapp f g)

mutual
/-- Modelled from the spec: the DOMPurify sanitization pass over one parsed
node. A dangerous tag (script, style, iframe) is removed together with its
content; any other deny-listed or non-allow-listed tag is stripped but its
(sanitized) content is preserved; an allow-listed tag is kept with its
attributes filtered through keepAttr and its children sanitized. -/
def sanitizeNode : HNode → HForest
  | .text s => .cons (.text s) .nil
  | .elem tag attrs children =>
    let t := lowerStr tag
    if decide (t ∈ forbidContents) then .nil
    else if decide (t ∈ forbidTags) then sanitizeForest children
    else if decide (t ∈ allowedTags) then
      .cons (.elem t (filterAttrs attrs) (sanitizeForest children)) .nil
    else sanitizeForest children
/-- Modelled from the spec: the DOMPurify sanitization pass over a parsed
document fragment, node by node. -/
def sanitizeForest : HForest → HForest
  | .nil => .nil
  | .cons n f => fapp (sanitizeNode n) (sanitizeForest f)
end

mutual
/-- Normal form produced by the sanitizer on a node: the element carries an
allow-listed (hence lower-case) tag, every attribute is a fixed point of
keepAttr, and children are in normal form. -/
def nodeOK : HNode → Bool
  | .text _ => true
  | .elem t a c =>
    decide (t ∈ allowedTags) && a.all (fun p => decide (keepAttr p = some p))
      && forestOK c
/-- Normal form of a document fragment. -/
def forestOK : HForest → Bool
  | .nil => true
  | .cons n f => nodeOK n && forestOK f
end

mutual
/-- The safety property the spec promises of sanitized output, on a node: not
a script element, not an iframe element, no attribute whose name starts with
on, and children safe. -/
def nodeSafe : HNode → Bool
  | .text _ => true
  | .elem t a c =>
    !(t == tagScript) && !(t == tagIframe)
      && a.all (fun p => !(strStarts p.1 strOn)) && forestSafe c
/-- The safety property on a document fragment. -/
def forestSafe : HForest → Bool
  | .nil => true
  | .cons n f => nodeSafe n && forestSafe f
end

/-! ## HTML serialization and parsing (for the string-level pipeline)

The hardened handler passes the generated HTML string through the sanitizer
and publishes the resulting string. The browser-side parsing and
serialization wrapped up in DOMPurify.sanitize are modelled from the spec by
an executable parser and serializer; sanitizeHTML is their composition with
the tree-level pass above. -/

def cAmp : Char := Char.ofNat 38
def cLt : Char := Char.ofNat 60
def cGt : Char := Char.ofNat 62
def cQuot : Char := Char.ofNat 34
def cApos : Char := Char.ofNat 39
def cSlash : Char := Char.ofNat 47
def cBang : Char := Char.ofNat 33
def cEq : Char := Char.ofNat 61
def cColon : Char := Char.ofNat 58
def cNl : Char := Char.ofNat 10

def entAmp : String := "&amp;"
def entLt : String := "&lt;"
def entGt : String := "&gt;"
def entQuot : String := "&quot;"
def entApos : String := "&#39;"
def strLt : String := "<"
def strGt : String := ">"
def strLtSlash : String := "</"
def strSpace : String := " "
def strEqQuot : String := "=\""
def strQuot : String := "\""

def escChar (c : Char) : String :=
  if c == cAmp then entAmp
  else if c == cLt then entLt
  else if c == cGt then entGt
  else String.singleton c

def escapeText (s : String) : String := String.mk (s.data.flatMap (fun c => (escChar c).data))

def escAttrChar (c : Char) : String :=
  if c == cQuot then entQuot else escChar c

def escapeAttr (s : String) : String := String.mk (s.data.flatMap (fun c => (escAttrChar c).data))

/-- Tags serialized without a closing tag (void elements). -/
def voidTags : List String := ["br", "img", "hr", "input"]

def attrsString (attrs : List (String × String)) : String :=
  attrs.foldl (fun acc p => acc ++ strSpace ++ p.1 ++ strEqQuot ++ escapeAttr p.2 ++ strQuot) ""

mutual
/-- Serialization of one parsed node back to HTML text. -/
def serializeNode : HNode → String
  | .text s => escapeText s
  | .elem t a c =>
    if decide (t ∈ voidTags) then strLt ++ t ++ attrsString a ++ strGt
    else strLt ++ t ++ attrsString a ++ strGt ++ serializeForest c ++ strLtSlash ++ t ++ strGt
/-- Serialization of a parsed document fragment back to HTML text. -/
def serializeForest : HForest → String
  | .nil => ""
  | .cons n f => serializeNode n ++ serializeForest f
end

def isNameChar (c : Char) : Bool := c.isAlpha || c.isDigit

def lcStr (cs : List Char) : String := String.mk (cs.map Char.toLower)

def dAmp : List Char := "amp;".data
def dLt : List Char := "lt;".data
def dGt : List Char := "gt;".data
def dQuot : List Char := "quot;".data
def dApos : List Char := "#39;".data

/-- Entity decoding for the five entities the serializer can emit. -/
def unescapeChars (fuel : Nat) (cs : List Char) : List Char :=
  match fuel, cs with
  | 0, rest => rest
  | _ + 1, [] => []
  | f + 1, c :: rest =>
    if c == cAmp then
      if rest.take 4 == dAmp then cAmp :: unescapeChars f (rest.drop 4)
      else if rest.take 3 == dLt then cLt :: unescapeChars f (rest.drop 3)
      else if rest.take 3 == dGt then cGt :: unescapeChars f (rest.drop 3)
      else if rest.take 5 == dQuot then cQuot :: unescapeChars f (rest.drop 5)
      else if rest.take 4 == dApos then cApos :: unescapeChars f (rest.drop 4)
      else c :: unescapeChars f rest
    else c :: unescapeChars f rest

def skipWs (cs : List Char) : List Char := cs.dropWhile (fun c => c.isWhitespace)

def isAttrNameChar (c : Char) : Bool :=
  !(c.isWhitespace || c == cEq || c == cGt || c == cSlash)

/-- Attribute list of an open tag, up to and including the closing angle
bracket; the final component reports a self-closing tag. -/
def readAttrs (fuel : Nat) (cs : List Char) : List (String × String) × List Char × Bool :=
  match fuel with
  | 0 => ([], cs, false)
  | f + 1 =>
    let cs1 := skipWs cs
    match cs1 with
    | [] => ([], [], false)
    | c :: rest =>
      if c == cGt then ([], rest, false)
      else if c == cSlash then
        match rest with
        | d :: rest2 => if d == cGt then ([], rest2, true) else readAttrs f rest
        | [] => ([], [], false)
      else
        let nm := cs1.takeWhile isAttrNameChar
        let r1 := cs1.dropWhile isAttrNameChar
        let r1s := skipWs r1
        match r1s with
        | e :: r2 =>
          if e == cEq then
            let r2s := skipWs r2
            match r2s with
            | q :: r3 =>
              if q == cQuot || q == cApos then
                let v := r3.takeWhile (fun c2 => !(c2 == q))
                let r4 := (r3.dropWhile (fun c2 => !(c2 == q))).drop 1
                let (restA, r6, sc) := readAttrs f r4
                ((lcStr nm, String.mk (unescapeChars (v.length + 1) v)) :: restA, r6, sc)
              else
                let v := r2s.takeWhile (fun c2 => !(c2.isWhitespace || c2 == cGt))
                let r4 := r2s.dropWhile (fun c2 => !(c2.isWhitespace || c2 == cGt))
                let (restA, r6, sc) := readAttrs f r4
                ((lcStr nm, String.mk (unescapeChars (v.length + 1) v)) :: restA, r6, sc)
            | [] => ([(lcStr nm, "")], [], false)
          else
            let (restA, r6, sc) := readAttrs f r1s
            ((lcStr nm, "") :: restA, r6, sc)
        | [] => ([(lcStr nm, "")], [], false)

/-- Fuel-bounded recursive-descent HTML fragment parser: returns the nodes up
to the close tag named by stopTag (consumed) or the end of input, along with
the unconsumed remainder. -/
def parseNodesAux (fuel : Nat) (cs : List Char) (stopTag : Option String) :
    HForest × List Char :=
  match fuel with
  | 0 => (.nil, cs)
  | f + 1 =>
    match cs with
    | [] => (.nil, [])
    | c :: rest =>
      if c == cLt then
        match rest with
        | [] => (.cons (HNode.text strLt) .nil, [])
        | d :: rest2 =>
          if d == cSlash then
            let nm := rest2.takeWhile isNameChar
            let r1 := rest2.dropWhile isNameChar
            let r2 := (r1.dropWhile (fun x => !(x == cGt))).drop 1
            let name := lcStr nm
            match stopTag with
            | some st =>
              if name == st then (.nil, r2)
              else parseNodesAux f r2 stopTag
            | none => parseNodesAux f r2 none
          else if d == cBang then
            parseNodesAux f ((rest2.dropWhile (fun x => !(x == cGt))).drop 1) stopTag
          else if isNameChar d then
            let nm := rest.takeWhile isNameChar
            let r1 := rest.dropWhile isNameChar
            let name := lcStr nm
            let (attrs, r2, selfC) := readAttrs f r1
            if selfC || decide (name ∈ voidTags) then
              let (sibs, r3) := parseNodesAux f r2 stopTag
              (.cons (HNode.elem name attrs .nil) sibs, r3)
            else
              let (children, r3) := parseNodesAux f r2 (some name)
              let (sibs, r4) := parseNodesAux f r3 stopTag
              (.cons (HNode.elem name attrs children) sibs, r4)
          else
            let (sibs, r3) := parseNodesAux f rest stopTag
            (.cons (HNode.text strLt) sibs, r3)
      else
        let txt := cs.takeWhile (fun x => !(x == cLt))
        let r1 := cs.dropWhile (fun x => !(x == cLt))
        let (sibs, r2) := parseNodesAux f r1 stopTag
        (.cons (HNode.text (String.mk (unescapeChars (txt.length + 1) txt))) sibs, r2)

/-- Modelled from the spec: the browser-side HTML parsing DOMPurify operates
on; not code of the repository. -/
def parseHTML (s : String) : HForest :=
  (parseNodesAux (s.length * 2 + 16) s.data none).1

/-- sanitizeHTML of src/api/publish.js lines 147-155: DOMPurify.sanitize with
the configured allow-lists, modelled as parse, tree-level sanitize,
serialize. -/
def sanitizeHTML (s : String) : String :=
  serializeForest (sanitizeForest (parseHTML s))

/-! ## The hardened handler (src/api/publish.js lines 188-317) -/

/-- How the request body arrives: an already parsed object, a string body
that parses to an object, or a string body on which JSON.parse throws. -/
inductive BodyInput where
  | obj (b : ReqBody)
  | strOk (b : ReqBody)
  | strBad
deriving Repr

def parseBody : BodyInput → Option ReqBody
  | .obj b => some b
  | .strOk b => some b
  | .strBad => none

structure Request where
  method : String
  clientId : String
  body : BodyInput
deriving Repr

/-- tags?.length || 0 of the success metadata (line 256). -/
def tagCountOf : JSVal → Nat
  | .arr xs => xs.length
  | .str s => s.length
  | _ => 0

def methodNotAllowedResponse : Response :=
  { emptyResponse with
    status := 405
    error := some errMethodNA
    allowed := some [mGET, mPOST] }

def rateLimitedResponse : Response :=
  { emptyResponse with
    status := 429
    error := some msgLimiter }

def invalidJsonResponse : Response :=
  { emptyResponse with
    status := 400
    error := some errInvalidJson }

/-- The GET health check, lines 190-209. -/
def healthResponse (env : Env) : Response :=
  match validateEnvironment env with
  | .ok _ => { emptyResponse with status := 200 }
  | .error m =>
    { emptyResponse with
      status := 500
      message := some m }

/-- Success response of the hardened handler, lines 246-259. -/
def successResponse (v : ValidReq) (clean : String) (post : BlogPost) : Response :=
  { emptyResponse with
    status := 200
    success := some true
    message := some (if v.publish then msgPubOK else msgDraftOK)
    postId := some post.id
    postUrl := some post.url
    postStatus := some post.status
    published := some post.published
    titleLength := some v.title.length
    tagCount := some (tagCountOf v.tags)
    contentLength := some clean.length }

/-- Generation and publishing stages of the hardened handler (lines 236-259
with the catch of lines 261-316): generate, sanitize, publish, respond; the
outbound calls made so far are recorded in the trace. -/
def genPhase (v : ValidReq) (gem : GemOutcome) (blog : BlogOutcome) :
    Response × List Call :=
  match generateContentWithGemini gem with
  | .error e => (mapError e, [Call.gen])
  | .ok html =>
    let clean := sanitizeHTML html
    match publishToBlogger blog with
    | .error e => (mapError e, [Call.gen, Call.publishPost v.title clean v.tags v.publish])
    | .ok post =>
      (successResponse v clean post,
        [Call.gen, Call.publishPost v.title clean v.tags v.publish])

/-- The POST pipeline after rate limiting (lines 223-259): environment
validation, body parsing, request validation, then the generation and
publishing stages; every thrown error is mapped by the catch block. -/
def postPhase (bodyIn : BodyInput) (env : Env) (gem : GemOutcome)
    (blog : BlogOutcome) : Response × List Call :=
  match validateEnvironment env with
  | .error msg => (mapError (strError msg), [])
  | .ok _ =>
    match parseBody bodyIn with
    | none => (invalidJsonResponse, [])
    | some b =>
      match validateRequest b with
      | .error msg => (mapError (strError msg), [])
      | .ok v => genPhase v gem blog

/-- The hardened handler of src/api/publish.js lines 188-317: GET health
check, 405 for anything that is neither GET nor POST, then rate limiting
followed by the POST pipeline. The result carries the HTTP response, the
trace of outbound calls, and the updated limiter store. -/
def handler (req : Request) (env : Env) (lim : LimiterState) (now : Nat)
    (gem : GemOutcome) (blog : BlogOutcome) :
    Response × List Call × LimiterState :=
  if req.method == mGET then (healthResponse env, [], lim)
  else if !(req.method == mPOST) then (methodNotAllowedResponse, [], lim)
  else
    let p := limiterHit lim req.clientId now
    if p.1 then
      let q := postPhase req.body env gem blog
      (q.1, q.2, p.2)
    else (rateLimitedResponse, [], p.2)

/-! ## Handler variant V1 (src/unnamed/part_000 lines 184-252) -/

def errTitleRequired : String := "Title required"

structure ReqV1 where
  method : String
  title : Option String
deriving Repr

/-- Outbound calls of the V1 handler: the publish content can be the
JavaScript undefined when the Gemini body lacks a text field. -/
inductive CallV1 where
  | gen
  | publishPost (title : String) (content : Option String)
deriving Repr, DecidableEq

/-- The unguarded chain data.candidates[0].content.parts[0].text of part_000
line 220: a missing intermediate property throws a TypeError; only the final
text property may be absent without throwing. -/
def extractV1 (b : GemBody) : Except Unit (Option String) :=
  match b.candidates with
  | none => Except.error ()
  | some cands =>
    match cands.head? with
    | none => Except.error ()
    | some cand =>
      match cand.content with
      | none => Except.error ()
      | some cont =>
        match cont.parts with
        | none => Except.error ()
        | some ps =>
          match ps.head? with
          | none => Except.error ()
          | some part => Except.ok part.text

def v1Err500 : Response :=
  { emptyResponse with
    status := 500
    error := some errPublishingFailed }

/-- The V1 handler of part_000 lines 187-252: POST-only gating with a bare
405 body, a title presence check, then generation and publishing with a
catch-all 500. -/
def handlerV1 (req : ReqV1) (gem : GemOutcome) (blog : BlogOutcome) :
    Response × List CallV1 :=
  if !(req.method == mPOST) then
    ({ emptyResponse with
       status := 405
       error := some errMethodNA }, [])
  else
    match req.title with
    | none =>
      ({ emptyResponse with
         status := 400
         error := some errTitleRequired }, [])
    | some t =>
      if t == "" then
        ({ emptyResponse with
           status := 400
           error := some errTitleRequired }, [])
      else
        match gem with
        | .fail _ => (v1Err500, [CallV1.gen])
        | .ok b =>
          match extractV1 b with
          | .error _ => (v1Err500, [CallV1.gen])
          | .ok txt =>
            match blog with
            | .fail _ => (v1Err500, [CallV1.gen, CallV1.publishPost t txt])
            | .ok _ =>
              ({ emptyResponse with
                 status := 200
                 success := some true }, [CallV1.gen, CallV1.publishPost t txt])

/-! ## Handler variant V2 (src/unnamed/part_001 lines 1-206) -/

def errMethodNAV2 : String := "Method not allowed. Use POST."
def errInvalidJsonV2 : String := "Invalid JSON in request body"
def msgGeminiEmptyV2 : String := "Gemini API returned empty content"
def msgPubOKV2 : String := "Blog published successfully!"
def errConfigV2 : String := "Server configuration error. Please contact administrator."
def msgQuotaV2 : String := "API quota exceeded. Please try again later."
def msgTimeoutV2 : String := "Request timed out. Please try again."
def msgAuthV2 : String := "Blogger authentication failed. Please check your refresh token."
def msgDefaultV2 : String := "Failed to publish blog post"
def substrTimeout : String := "timeout"
def substrUnauthorized : String := "Unauthorized"
def substrInvalidGrant : String := "invalid_grant"
def vBLOGGER_CLIENT_ID : String := "BLOGGER_CLIENT_ID"
def vBLOGGER_CLIENT_SECRET : String := "BLOGGER_CLIENT_SECRET"
def vBLOGGER_REFRESH_TOKEN : String := "BLOGGER_REFRESH_TOKEN"
def vBLOGGER_BLOG_ID : String := "BLOGGER_BLOG_ID"

structure BodyV2 where
  title : JSVal
  tags : Option (List JSVal)
deriving Repr

inductive BodyInputV2 where
  | obj (b : BodyV2)
  | strOk (b : BodyV2)
  | strBad
deriving Repr

def parseBodyV2 : BodyInputV2 → Option BodyV2
  | .obj b => some b
  | .strOk b => some b
  | .strBad => none

structure ReqV2 where
  method : String
  body : BodyInputV2
deriving Repr

structure EnvV2 where
  gemini_api_key : Option String
  blogger_client_id : Option String
  blogger_client_secret : Option String
  blogger_refresh_token : Option String
  blogger_blog_id : Option String
deriving Repr, DecidableEq

/-- The required-variable filter of part_001 lines 53-61, in source order. -/
def missingVarsV2 (e : EnvV2) : List String :=
  [(vGEMINI, e.gemini_api_key), (vBLOGGER_CLIENT_ID, e.blogger_client_id),
   (vBLOGGER_CLIENT_SECRET, e.blogger_client_secret),
   (vBLOGGER_REFRESH_TOKEN, e.blogger_refresh_token),
   (vBLOGGER_BLOG_ID, e.blogger_blog_id)].filterMap
    (fun p => if envPresent p.2 then none else some p.1)

/-- The labels filter of part_001 line 152: keep the tags that are strings
and non-empty after trimming, unchanged. -/
def filterTagsV2 (tags : List JSVal) : List String :=
  tags.filterMap (fun v =>
    match v with
    | .str s => if jsTrim s == "" then none else some s
    | _ => none)

/-- Outbound calls of the V2 handler. -/
inductive CallV2 where
  | gen
  | publishPost (title : String) (content : String) (labels : List String)
deriving Repr, DecidableEq

/-- Branches 6 and 7 of the V2 error mapping (part_001 lines 196-199 and the
initial defaults of lines 178-179). -/
def authOrDefaultV2 (e : JSError) : Response :=
  if containsSub e.message substrUnauthorized || containsSub e.message substrInvalidGrant then
    { emptyResponse with
      status := 401
      success := some false
      error := some msgAuthV2 }
  else
    { emptyResponse with
      status := 500
      success := some false
      error := some msgDefaultV2 }

/-- The catch block of the V2 handler, part_001 lines 169-204: the if/else-if
chain over the error message and response, defaulting to a 500. -/
def mapErrorV2 (e : JSError) : Response :=
  if containsSub e.message substrMissingEnv then
    { emptyResponse with
      status := 500
      success := some false
      error := some errConfigV2 }
  else if containsSub e.message substrTitleMustBe then
    { emptyResponse with
      status := 400
      success := some false
      error := some e.message }
  else if containsSub e.message substrQuota || e.response.map RespInfo.status == some 429 then
    { emptyResponse with
      status := 429
      success := some false
      error := some msgQuotaV2 }
  else if containsSub e.message substrTimeout || e.code == some nECONNABORTED then
    { emptyResponse with
      status := 504
      success := some false
      error := some msgTimeoutV2 }
  else
    match e.response with
    | some r =>
      match r.errMsg with
      | some m =>
        if m == "" then authOrDefaultV2 e
        else
          { emptyResponse with
            status := if r.status == 0 then 500 else r.status
            success := some false
            error := some m }
      | none => authOrDefaultV2 e
    | none => authOrDefaultV2 e

/-- Generation and publishing stages of the V2 handler (part_001 lines
66-167). -/
def v2Pipeline (t : String) (tags : List JSVal) (env : EnvV2)
    (gem : GemOutcome) (blog : BlogOutcome) : Response × List CallV2 :=
  if !(missingVarsV2 env).isEmpty then
    (mapErrorV2 (strError
      (msgMissingEnvPrefix ++ String.intercalate ", " (missingVarsV2 env))), [])
  else
    match gem with
    | .fail e => (mapErrorV2 e, [CallV2.gen])
    | .ok gb =>
      match extractText gb with
      | none => (mapErrorV2 (strError msgGeminiEmptyV2), [CallV2.gen])
      | some h =>
        if h == "" then (mapErrorV2 (strError msgGeminiEmptyV2), [CallV2.gen])
        else
          let labels := filterTagsV2 tags
          match blog with
          | .fail e => (mapErrorV2 e, [CallV2.gen, CallV2.publishPost (jsTrim t) h labels])
          | .ok post =>
            ({ emptyResponse with
               status := 200
               success := some true
               message := some msgPubOKV2
               postId := some post.id
               postUrl := some post.url
               titleOut := some post.title
               published := some post.published
               postStatus := some post.status },
             [CallV2.gen, CallV2.publishPost (jsTrim t) h labels])

/-- The V2 handler of part_001 lines 4-206: OPTIONS preflight, POST-only
gating, JSON body parsing, title validation (presence, string type, trimmed
length), then environment check, generation and publishing. -/
def handlerV2 (req : ReqV2) (env : EnvV2) (gem : GemOutcome)
    (blog : BlogOutcome) : Response × List CallV2 :=
  if req.method == mOPTIONS then ({ emptyResponse with status := 200 }, [])
  else if !(req.method == mPOST) then
    ({ emptyResponse with
       status := 405
       success := some false
       error := some errMethodNAV2 }, [])
  else
    match parseBodyV2 req.body with
    | none =>
      ({ emptyResponse with
         status := 400
         success := some false
         error := some errInvalidJsonV2 }, [])
    | some b =>
      match b.title with
      | JSVal.str t =>
        if t == "" || decide ((jsTrim t).length < 5) then
          ({ emptyResponse with
             status := 400
             success := some false
             error := some msgTitleMin }, [])
        else v2Pipeline t (b.tags.getD []) env gem blog
      | _ =>
        ({ emptyResponse with
           status := 400
           success := some false
           error := some msgTitleMin }, [])

/-! ## The image URL collector (src/unnamed/part_000 lines 108-130)

The DOM and the computed styles are the collector's input, modelled as plain
data: each img element carries its currentSrc and src attributes, and every
other element carries its computed background-image string. -/

structure ImgEl where
  currentSrc : String
  src : String
deriving Repr, DecidableEq

structure DomEl where
  backgroundImage : String
deriving Repr, DecidableEq

structure Dom where
  imgs : List ImgEl
  els : List DomEl
deriving Repr, DecidableEq

/-- img.currentSrc || img.src (line 112). -/
def effSrc (i : ImgEl) : String := if i.currentSrc == "" then i.src else i.currentSrc

/-- Insertion into the JavaScript Set of line 109 (first occurrence wins,
insertion order preserved). -/
def setAdd (l : List String) (s : String) : List String :=
  if s ∈ l then l else l ++ [s]

/-- The guarded add: if (value) urls.add(value), lines 113 and 125. -/
def addNonempty (acc : List String) (s : String) : List String :=
  if s == "" then acc else setAdd acc s

def cRpar : Char := Char.ofNat 41
def dRlOpen : List Char := "rl(".data
def dUrlOpen : List Char := "url(".data
def strNone : String := "none"

/-- Scan for the quoted terminator of the lazy regex body: the first
occurrence of the quote followed by a closing parenthesis, with no newline
crossed (the dot of the pattern does not match newlines). -/
def findTermQ (fuel : Nat) (q : Char) (cs : List Char) (acc : List Char) :
    Option (List Char × List Char) :=
  match fuel, cs with
  | 0, _ => none
  | _ + 1, [] => none
  | f + 1, c :: rest =>
    if c == cNl then none
    else if c == q then
      match rest with
      | r :: rest2 =>
        if r == cRpar then some (acc.reverse, rest2)
        else findTermQ f q rest (c :: acc)
      | [] => none
    else findTermQ f q rest (c :: acc)

/-- Scan for the unquoted terminator: the first closing parenthesis with no
newline crossed. -/
def findTermP (fuel : Nat) (cs : List Char) (acc : List Char) :
    Option (List Char × List Char) :=
  match fuel, cs with
  | 0, _ => none
  | _ + 1, [] => none
  | f + 1, c :: rest =>
    if c == cNl then none
    else if c == cRpar then some (acc.reverse, rest)
    else findTermP f cs.tail (c :: acc)

/-- One attempt of the regex body right after a literal url and opening
parenthesis: first with the optional quote group capturing a quote character
(the greedy option), then backtracking to the empty capture. Returns the full
matched substring and the remainder after it. -/
def tryUrlBody (cs : List Char) : Option (List Char × List Char) :=
  match cs with
  | [] => none
  | q :: rest =>
    if q == cQuot || q == cApos then
      match findTermQ (rest.length + 1) q rest [] with
      | some (inner, after) => some (dUrlOpen ++ [q] ++ inner ++ [q, cRpar], after)
      | none =>
        match findTermP (cs.length + 1) cs [] with
        | some (inner, after) => some (dUrlOpen ++ inner ++ [cRpar], after)
        | none => none
    else
      match findTermP (cs.length + 1) cs [] with
      | some (inner, after) => some (dUrlOpen ++ inner ++ [cRpar], after)
      | none => none

/-- The global regex match of line 120: every match of the url pattern, in
order, each match resuming after the previous one. -/
def scanUrlMatches (fuel : Nat) (cs : List Char) : List (List Char) :=
  match fuel, cs with
  | 0, _ => []
  | _ + 1, [] => []
  | f + 1, c :: rest =>
    if c == 'u' && rest.take 3 == dRlOpen then
      match tryUrlBody (rest.drop 3) with
      | some (m, after) => m :: scanUrlMatches f after
      | none => scanUrlMatches f rest
    else scanUrlMatches f rest

/-- The cleanup replace of line 124: delete every occurrence of a literal
url and opening parenthesis, every closing parenthesis and every quote. -/
def stripUrlTokens (fuel : Nat) (cs : List Char) : List Char :=
  match fuel, cs with
  | 0, rest => rest
  | _ + 1, [] => []
  | f + 1, c :: rest =>
    if c == 'u' && rest.take 3 == dRlOpen then stripUrlTokens f (rest.drop 3)
    else if c == cRpar || c == cApos || c == cQuot then stripUrlTokens f rest
    else c :: stripUrlTokens f rest

/-- URL strings extracted from one computed background-image value, lines
117-126: skip falsy and none values, match the url pattern globally, clean
each match. -/
def bgUrls (bg : String) : List String :=
  if bg == "" || bg == strNone then []
  else (scanUrlMatches (bg.length + 1) bg.data).map
    (fun m => String.mk (stripUrlTokens (m.length + 1) m))

/-- collectImages of part_000 lines 108-130: img sources first, then every
element's background-image URLs, deduplicated through the Set, returned in
insertion order. -/
def collectImages (d : Dom) : List String :=
  let urls := d.imgs.foldl (fun acc i => addNonempty acc (effSrc i)) []
  d.els.foldl (fun acc el => (bgUrls el.backgroundImage).foldl addNonempty acc) urls

/-- A sequence of requests processed by the hardened handler, threading the
limiter store from one invocation to the next; each request comes with its
arrival time. -/
def runRequests (env : Env) (gem : GemOutcome) (blog : BlogOutcome) :
    List (Nat × Request) → LimiterState → List (Response × List Call) × LimiterState
  | [], st => ([], st)
  | (t, r) :: rest, st =>
    let out := handler r env st t gem blog
    let next := runRequests env gem blog rest out.2.2
    ((out.1, out.2.1) :: next.1, next.2)

/-- The serialized form of one attribute, as attrsString emits it. -/
def attrPiece (p : String × String) : String :=
  strSpace ++ p.1 ++ strEqQuot ++ escapeAttr p.2 ++ strQuot

/-- Split a document fragment into the concatenated text content of its
leading text nodes and the remainder (which is empty or element-headed). -/
def splitTexts : HForest → String × HForest
  | .nil => ("", .nil)
  | .cons (.text s) f => (s ++ (splitTexts f).1, (splitTexts f).2)
  | .cons (.elem t a c) f => ("", .cons (.elem t a c) f)

/-! ## Concrete fixtures used by witnesses and counterexamples -/

/-- A configuration with every required variable present. -/
def envOK : Env := ⟨some "k", some "i", some "s", some "r", some "b", some "u"⟩

/-- A V2 configuration with every required variable present. -/
def envOKV2 : EnvV2 := ⟨some "k", some "i", some "s", some "r", some "b"⟩

/-- A Gemini 2xx body whose text path holds a small HTML fragment. -/
def gemOkX : GemOutcome :=
  GemOutcome.ok ⟨some [⟨some ⟨some [⟨some "<p>hi</p>"⟩]⟩⟩]⟩

/-- A Gemini 2xx body with no candidates, so the text path is absent. -/
def gemEmptyX : GemOutcome := GemOutcome.ok ⟨some []⟩

/-- A successful Blogger insert result. -/
def blogOkX : BlogOutcome :=
  BlogOutcome.ok ⟨"8791", "https://blog.example/post", "live", "2025-01-01", "T"⟩

/-! ## Lemmas about the sanitizer -/

theorem toLower_of_mem_allowedTags {t : String} (h : t ∈ allowedTags) :
    lowerStr t = t := by
  fin_cases h <;> decide

theorem not_forbidContents_of_mem_allowedTags {t : String} (h : t ∈ allowedTags) :
    t ∉ forbidContents := by
  fin_cases h <;> decide

theorem not_forbidTags_of_mem_allowedTags {t : String} (h : t ∈ allowedTags) :
    t ∉ forbidTags := by
  fin_cases h <;> decide

theorem beq_script_of_mem_allowedTags {t : String} (h : t ∈ allowedTags) :
    (t == tagScript) = false := by
  fin_cases h <;> decide

theorem beq_iframe_of_mem_allowedTags {t : String} (h : t ∈ allowedTags) :
    (t == tagIframe) = false := by
  fin_cases h <;> decide

theorem toLower_of_mem_allowedAttrs {s : String} (h : s ∈ allowedAttrs) :
    lowerStr s = s := by
  fin_cases h <;> decide

theorem not_on_of_mem_allowedAttrs {s : String} (h : s ∈ allowedAttrs) :
    strStarts s strOn = false := by
  fin_cases h <;> decide

theorem keepAttr_mem_fix {p q : String × String} (h : keepAttr p = some q) :
    q.1 ∈ allowedAttrs ∧ keepAttr q = some q := by
  rcases p with ⟨n, v⟩
  simp only [keepAttr] at h
  split at h
  case isTrue hc =>
    cases h
    have hm : lowerStr n ∈ allowedAttrs := by
      have hc1 := hc
      rw [Bool.and_assoc, Bool.and_eq_true, Bool.and_eq_true, decide_eq_true_eq] at hc1
      exact hc1.1
    refine ⟨hm, ?_⟩
    simp [keepAttr, toLower_of_mem_allowedAttrs hm, hc]
  case isFalse hc => exact absurd h (by simp)

theorem filterAttrs_all_stable (a : List (String × String)) :
    (filterAttrs a).all (fun p => decide (keepAttr p = some p)) = true := by
  rw [List.all_eq_true]
  intro p hp
  rw [decide_eq_true_eq]
  rcases List.mem_filterMap.mp hp with ⟨q, _, hkeep⟩
  exact (keepAttr_mem_fix hkeep).2

theorem filterAttrs_id {a : List (String × String)}
    (h : a.all (fun p => decide (keepAttr p = some p)) = true) :
    filterAttrs a = a := by
  induction a with
  | nil => rfl
  | cons x xs ih =>
    rw [List.all_cons, Bool.and_eq_true, decide_eq_true_eq] at h
    simp only [filterAttrs] at ih ⊢
    simp [List.filterMap_cons, h.1, ih h.2]

theorem forestOK_fapp (f g : HForest) :
    forestOK (fapp f g) = (forestOK f && forestOK g) := by
  refine @HForest.rec (fun _ => True)
    (fun f => forestOK (fapp f g) = (forestOK f && forestOK g)) ?_ ?_ ?_ ?_ f
  · intro s; trivial
  · intro tag attrs c _; trivial
  · simp [fapp, forestOK]
  · intro n f ihn ihf
    simp [fapp, forestOK, ihf, Bool.and_assoc]

theorem forestOK_sanitize (f : HForest) : forestOK (sanitizeForest f) = true := by
  refine @HForest.rec (fun n => forestOK (sanitizeNode n) = true)
    (fun f => forestOK (sanitizeForest f) = true) ?_ ?_ ?_ ?_ f
  · intro s; rfl
  · intro tag attrs c ih
    simp only [sanitizeNode]
    split_ifs with h1 h2 h3
    · rfl
    · exact ih
    · simp only [forestOK, nodeOK, Bool.and_eq_true]
      exact ⟨⟨⟨by simpa using h3, filterAttrs_all_stable attrs⟩, ih⟩, trivial⟩
    · exact ih
  · rfl
  · intro n f ihn ihf
    simp only [sanitizeForest, forestOK_fapp, ihn, ihf, Bool.and_self]

theorem sanitizeForest_fixed {f : HForest} (h : forestOK f = true) :
    sanitizeForest f = f := by
  refine @HForest.rec (fun n => nodeOK n = true → sanitizeNode n = .cons n .nil)
    (fun f => forestOK f = true → sanitizeForest f = f) ?_ ?_ ?_ ?_ f h
  · intro s _; rfl
  · intro tag attrs c ih hn
    simp only [nodeOK, Bool.and_eq_true, decide_eq_true_eq] at hn
    obtain ⟨⟨hmem, hattrs⟩, hc⟩ := hn
    simp only [sanitizeNode, toLower_of_mem_allowedTags hmem,
      decide_eq_false (not_forbidContents_of_mem_allowedTags hmem),
      decide_eq_false (not_forbidTags_of_mem_allowedTags hmem),
      decide_eq_true hmem, Bool.false_eq_true, if_false, if_true]
    rw [filterAttrs_id hattrs, ih hc]
  · intro _; rfl
  · intro n f ihn ihf hok
    simp only [forestOK, Bool.and_eq_true] at hok
    simp only [sanitizeForest, ihn hok.1, ihf hok.2, fapp]

theorem forestSafe_of_ok {f : HForest} (h : forestOK f = true) :
    forestSafe f = true := by
  refine @HForest.rec (fun n => nodeOK n = true → nodeSafe n = true)
    (fun f => forestOK f = true → forestSafe f = true) ?_ ?_ ?_ ?_ f h
  · intro s _; rfl
  · intro tag attrs c ih hn
    simp only [nodeOK, Bool.and_eq_true, decide_eq_true_eq] at hn
    obtain ⟨⟨hmem, hattrs⟩, hc⟩ := hn
    simp only [nodeSafe, Bool.and_eq_true]
    refine ⟨⟨⟨?_, ?_⟩, ?_⟩, ih hc⟩
    · simp [beq_script_of_mem_allowedTags hmem]
    · simp [beq_iframe_of_mem_allowedTags hmem]
    · rw [List.all_eq_true] at hattrs ⊢
      intro p hp
      have hstable := hattrs p hp
      rw [decide_eq_true_eq] at hstable
      simp [not_on_of_mem_allowedAttrs (keepAttr_mem_fix hstable).1]
  · intro _; rfl
  · intro n f ihn ihf hok
    simp only [forestOK, Bool.and_eq_true] at hok
    simp only [forestSafe, ihn hok.1, ihf hok.2, Bool.and_self]

/-! ## Lemmas for the serialize and parse round trip -/

theorem beq_false_of_head_ne {a b : Char} (h : (a == b) = false)
    (l1 l2 : List Char) : ((a :: l1) == (b :: l2)) = false := by
  rw [beq_eq_false_iff_ne] at h
  rw [beq_eq_false_iff_ne]
  intro hc
  injection hc with h1 _
  exact h h1

theorem takeWhile_append_all {p : Char → Bool} {l : List Char} (r : List Char)
    (h : ∀ x ∈ l, p x = true) :
    (l ++ r).takeWhile p = l ++ r.takeWhile p := by
  induction l with
  | nil => simp
  | cons x xs ih =>
    have hx := h x (List.mem_cons_self x xs)
    simp only [List.cons_append, List.takeWhile_cons, hx, if_true]
    rw [ih (fun y hy => h y (List.mem_cons_of_mem x hy))]

theorem dropWhile_append_all {p : Char → Bool} {l : List Char} (r : List Char)
    (h : ∀ x ∈ l, p x = true) :
    (l ++ r).dropWhile p = r.dropWhile p := by
  induction l with
  | nil => simp
  | cons x xs ih =>
    have hx := h x (List.mem_cons_self x xs)
    simp only [List.cons_append, List.dropWhile_cons, hx, if_true]
    exact ih (fun y hy => h y (List.mem_cons_of_mem x hy))

theorem escChar_no_lt (c : Char) : ∀ x ∈ (escChar c).data, (x == cLt) = false := by
  intro x hx
  unfold escChar at hx
  split_ifs at hx with h1 h2 h3
  · fin_cases hx <;> decide
  · fin_cases hx <;> decide
  · fin_cases hx <;> decide
  · have : x = c := by
      simpa [String.singleton] using hx
    subst this
    rw [beq_eq_false_iff_ne]
    intro hc
    subst hc
    exact h2 (by decide)

theorem escAttrChar_no_quot (c : Char) :
    ∀ x ∈ (escAttrChar c).data, (x == cQuot) = false := by
  intro x hx
  unfold escAttrChar escChar at hx
  split_ifs at hx with h0 h1 h2 h3
  · fin_cases hx <;> decide
  · fin_cases hx <;> decide
  · fin_cases hx <;> decide
  · fin_cases hx <;> decide
  · have : x = c := by
      simpa [String.singleton] using hx
    subst this
    rw [beq_eq_false_iff_ne]
    intro hc
    subst hc
    exact h0 (by decide)

theorem escapeText_data (s : String) :
    (escapeText s).data = s.data.flatMap (fun c => (escChar c).data) := rfl

theorem escapeAttr_data (s : String) :
    (escapeAttr s).data = s.data.flatMap (fun c => (escAttrChar c).data) := rfl

theorem escapeText_no_lt (s : String) :
    ∀ x ∈ (escapeText s).data, (x == cLt) = false := by
  intro x hx
  rw [escapeText_data, List.mem_flatMap] at hx
  rcases hx with ⟨c, _, hxc⟩
  exact escChar_no_lt c x hxc

theorem escapeAttr_no_quot (s : String) :
    ∀ x ∈ (escapeAttr s).data, (x == cQuot) = false := by
  intro x hx
  rw [escapeAttr_data, List.mem_flatMap] at hx
  rcases hx with ⟨c, _, hxc⟩
  exact escAttrChar_no_quot c x hxc

theorem escapeText_append (s t : String) :
    escapeText (s ++ t) = escapeText s ++ escapeText t := by
  apply String.ext
  rw [String.data_append, escapeText_data, escapeText_data, escapeText_data,
    String.data_append, List.flatMap_append]

/-! ## Lemmas about the hardened handler -/

theorem handler_post_allowed (req : Request) (env : Env) (lim : LimiterState)
    (now : Nat) (gem : GemOutcome) (blog : BlogOutcome)
    (hm : req.method = mPOST) (ha : (limiterHit lim req.clientId now).1 = true) :
    handler req env lim now gem blog =
      ((postPhase req.body env gem blog).1, (postPhase req.body env gem blog).2,
        (limiterHit lim req.clientId now).2) := by
  have hne : mPOST ≠ mGET := by decide
  simp [handler, hm, ha, hne]

theorem handler_post_limited (req : Request) (env : Env) (lim : LimiterState)
    (now : Nat) (gem : GemOutcome) (blog : BlogOutcome)
    (hm : req.method = mPOST) (ha : (limiterHit lim req.clientId now).1 = false) :
    handler req env lim now gem blog =
      (rateLimitedResponse, [], (limiterHit lim req.clientId now).2) := by
  have hne : mPOST ≠ mGET := by decide
  simp [handler, hm, ha, hne]

theorem handler_state (req : Request) (env : Env) (lim : LimiterState)
    (now : Nat) (gem : GemOutcome) (blog : BlogOutcome)
    (hm : req.method = mPOST) :
    (handler req env lim now gem blog).2.2 = (limiterHit lim req.clientId now).2 := by
  rcases ha : (limiterHit lim req.clientId now).1 with _ | _
  · rw [handler_post_limited req env lim now gem blog hm ha]
  · rw [handler_post_allowed req env lim now gem blog hm ha]

theorem postPhase_validation_error {bodyIn : BodyInput} {env : Env}
    {gem : GemOutcome} {blog : BlogOutcome} {b : ReqBody} {msg : String}
    (he : validateEnvironment env = Except.ok ())
    (hb : parseBody bodyIn = some b)
    (hv : validateRequest b = Except.error msg) :
    postPhase bodyIn env gem blog = (mapError (strError msg), []) := by
  simp [postPhase, he, hb, hv]

theorem postPhase_ok {bodyIn : BodyInput} {env : Env} {gem : GemOutcome}
    {blog : BlogOutcome} {b : ReqBody} {v : ValidReq}
    (he : validateEnvironment env = Except.ok ())
    (hb : parseBody bodyIn = some b)
    (hv : validateRequest b = Except.ok v) :
    postPhase bodyIn env gem blog = genPhase v gem blog := by
  simp [postPhase, he, hb, hv]

theorem validateRequest_titleShort {b : ReqBody} {t : String}
    (ht : b.title = some t) (hlen : (jsTrim t).length < 5) :
    validateRequest b = Except.error msgTitleMin := by
  simp [validateRequest, ht, hlen]

theorem validateRequest_titleLong {b : ReqBody} {t : String}
    (ht : b.title = some t) (hlen : 200 < (jsTrim t).length) :
    validateRequest b = Except.error msgTitleMax := by
  have ht0 : (t == "") = false := by
    rcases h : t == "" with _ | _
    · rfl
    · exfalso
      have : t = "" := by simpa using h
      subst this
      simp [jsTrim] at hlen
  have h5 : ¬ (jsTrim t).length < 5 := by omega
  simp [validateRequest, ht, ht0, hlen, h5]

/-! ## Lemmas about the generation and publishing stages -/

theorem gemini_empty {gb : GemBody} (hx : extractText gb = none) :
    generateContentWithGemini (GemOutcome.ok gb) = Except.error (strError msgGeminiEmpty) := by
  simp [generateContentWithGemini, hx]

theorem gemini_ok {gb : GemBody} {h : String} (hx : extractText gb = some h)
    (hne : (h == "") = false) :
    generateContentWithGemini (GemOutcome.ok gb) = Except.ok h := by
  simp [generateContentWithGemini, hx, hne]

theorem genPhase_gemini_error {v : ValidReq} {gem : GemOutcome} {blog : BlogOutcome}
    {e : JSError} (hg : generateContentWithGemini gem = Except.error e) :
    genPhase v gem blog = (mapError e, [Call.gen]) := by
  simp [genPhase, hg]

theorem genPhase_success {v : ValidReq} {gem : GemOutcome} {h : String}
    {post : BlogPost} (hg : generateContentWithGemini gem = Except.ok h) :
    genPhase v gem (BlogOutcome.ok post) =
      (successResponse v (sanitizeHTML h) post,
        [Call.gen, Call.publishPost v.title (sanitizeHTML h) v.tags v.publish]) := by
  simp [genPhase, hg, publishToBlogger]

/-! ## Lemmas about the collector -/

theorem addNonempty_inv (acc : List String) (s : String)
    (h1 : acc.Nodup) (h2 : ∀ u ∈ acc, u ≠ "") :
    (addNonempty acc s).Nodup ∧ ∀ u ∈ addNonempty acc s, u ≠ "" := by
  unfold addNonempty setAdd
  split_ifs with hs hmem
  · exact ⟨h1, h2⟩
  · exact ⟨h1, h2⟩
  · constructor
    · simp [List.nodup_append, h1, hmem]
    · intro u hu
      rcases List.mem_append.mp hu with h | h
      · exact h2 u h
      · have hus : u = s := by simpa using h
        subst hus
        intro hq
        rw [hq] at hs
        simp at hs

theorem foldl_addNonempty_inv (ss : List String) (acc : List String)
    (h1 : acc.Nodup) (h2 : ∀ u ∈ acc, u ≠ "") :
    (ss.foldl addNonempty acc).Nodup ∧ ∀ u ∈ ss.foldl addNonempty acc, u ≠ "" := by
  induction ss generalizing acc with
  | nil => exact ⟨h1, h2⟩
  | cons x xs ih =>
    have h := addNonempty_inv acc x h1 h2
    exact ih (addNonempty acc x) h.1 h.2

theorem foldImgs_inv (xs : List ImgEl) (acc : List String)
    (h1 : acc.Nodup) (h2 : ∀ u ∈ acc, u ≠ "") :
    (xs.foldl (fun a i => addNonempty a (effSrc i)) acc).Nodup ∧
      ∀ u ∈ xs.foldl (fun a i => addNonempty a (effSrc i)) acc, u ≠ "" := by
  induction xs generalizing acc with
  | nil => exact ⟨h1, h2⟩
  | cons x xs ih =>
    have h := addNonempty_inv acc (effSrc x) h1 h2
    exact ih (addNonempty acc (effSrc x)) h.1 h.2

theorem foldEls_inv (es : List DomEl) (acc : List String)
    (h1 : acc.Nodup) (h2 : ∀ u ∈ acc, u ≠ "") :
    (es.foldl (fun a el => (bgUrls el.backgroundImage).foldl addNonempty a) acc).Nodup ∧
      ∀ u ∈ es.foldl (fun a el => (bgUrls el.backgroundImage).foldl addNonempty a) acc,
        u ≠ "" := by
  induction es generalizing acc with
  | nil => exact ⟨h1, h2⟩
  | cons x xs ih =>
    have h := foldl_addNonempty_inv (bgUrls x.backgroundImage) acc h1 h2
    exact ih _ h.1 h.2

/-! ## The claims -/

/-- Claim C1: for every request body whose title has trimmed length below 5
or above 200, the hardened handler (given a POST that passes the rate limiter
with a valid configuration and a parseable body) answers HTTP 400 and makes
no outbound call to the generation or publish API: the call trace is empty. -/
theorem C1_title_validation_rejects (req : Request) (env : Env) (lim : LimiterState)
    (now : Nat) (gem : GemOutcome) (blog : BlogOutcome) (b : ReqBody) (t : String)
    (hm : req.method = mPOST)
    (ha : (limiterHit lim req.clientId now).1 = true)
    (he : validateEnvironment env = Except.ok ())
    (hb : parseBody req.body = some b)
    (ht : b.title = some t)
    (hlen : (jsTrim t).length < 5 ∨ 200 < (jsTrim t).length) :
    (handler req env lim now gem blog).1.status = 400 ∧
      (handler req env lim now gem blog).2.1 = [] := by
  rw [handler_post_allowed req env lim now gem blog hm ha]
  rcases hlen with hlt | hgt
  · rw [postPhase_validation_error he hb (validateRequest_titleShort ht hlt)]
    exact ⟨rfl, rfl⟩
  · rw [postPhase_validation_error he hb (validateRequest_titleLong ht hgt)]
    exact ⟨rfl, rfl⟩

theorem C1_witness :
    (handler ⟨mPOST, "w1", BodyInput.obj ⟨some "abc", JSVal.undef, none⟩⟩ envOK [] 0
        gemOkX blogOkX).1.status = 400 ∧
      (handler ⟨mPOST, "w1", BodyInput.obj ⟨some "abc", JSVal.undef, none⟩⟩ envOK [] 0
        gemOkX blogOkX).2.1 = [] :=
  C1_title_validation_rejects ⟨mPOST, "w1", BodyInput.obj ⟨some "abc", JSVal.undef, none⟩⟩
    envOK [] 0 gemOkX blogOkX ⟨some "abc", JSVal.undef, none⟩ "abc" rfl rfl rfl rfl rfl
    (Or.inl (by decide))

/-- Claim C2: when the generation API answers 2xx but the text path
candidates with index zero, content, parts with index zero, text is absent
from the body, the handler answers HTTP 500 carrying the empty-content
message, the outbound trace holds only the generation call (the publish API
is never called), and no success field is set: an absent path is a failure,
never an empty-string success. -/
theorem C2_empty_content_failure (req : Request) (env : Env) (lim : LimiterState)
    (now : Nat) (blog : BlogOutcome) (b : ReqBody) (v : ValidReq) (gb : GemBody)
    (hm : req.method = mPOST)
    (ha : (limiterHit lim req.clientId now).1 = true)
    (he : validateEnvironment env = Except.ok ())
    (hb : parseBody req.body = some b)
    (hv : validateRequest b = Except.ok v)
    (hx : extractText gb = none) :
    (handler req env lim now (GemOutcome.ok gb) blog).1.status = 500 ∧
      (handler req env lim now (GemOutcome.ok gb) blog).1.message = some msgGeminiEmpty ∧
      (handler req env lim now (GemOutcome.ok gb) blog).2.1 = [Call.gen] ∧
      (handler req env lim now (GemOutcome.ok gb) blog).1.success = none := by
  rw [handler_post_allowed req env lim now (GemOutcome.ok gb) blog hm ha,
    postPhase_ok he hb hv, genPhase_gemini_error (gemini_empty hx)]
  exact ⟨rfl, rfl, rfl, rfl⟩

theorem C2_witness :
    (handler ⟨mPOST, "w2", BodyInput.obj ⟨some "Valid Title", JSVal.undef, none⟩⟩ envOK [] 0
        gemEmptyX blogOkX).1.status = 500 ∧
      (handler ⟨mPOST, "w2", BodyInput.obj ⟨some "Valid Title", JSVal.undef, none⟩⟩ envOK [] 0
        gemEmptyX blogOkX).1.message = some msgGeminiEmpty ∧
      (handler ⟨mPOST, "w2", BodyInput.obj ⟨some "Valid Title", JSVal.undef, none⟩⟩ envOK [] 0
        gemEmptyX blogOkX).2.1 = [Call.gen] ∧
      (handler ⟨mPOST, "w2", BodyInput.obj ⟨some "Valid Title", JSVal.undef, none⟩⟩ envOK [] 0
        gemEmptyX blogOkX).1.success = none :=
  C2_empty_content_failure ⟨mPOST, "w2", BodyInput.obj ⟨some "Valid Title", JSVal.undef, none⟩⟩
    envOK [] 0 blogOkX ⟨some "Valid Title", JSVal.undef, none⟩
    ⟨jsTrim "Valid Title", JSVal.arr [], true⟩ ⟨some []⟩ rfl rfl rfl rfl rfl rfl

/-- Claim C4 counterexample: a request whose tags field is an array
containing an element that is empty after trimming is not rejected: the
hardened handler proceeds to make both outbound calls and answers 200. -/
theorem C4_element_tags_not_rejected :
    (handler ⟨mPOST, "c4", BodyInput.obj ⟨some "Valid Title", JSVal.arr [JSVal.str ""], none⟩⟩
        envOK [] 0 gemOkX blogOkX).2.1 =
      [Call.gen, Call.publishPost (jsTrim "Valid Title") (sanitizeHTML "<p>hi</p>")
        (JSVal.arr [JSVal.str ""]) true] ∧
      ((handler ⟨mPOST, "c4", BodyInput.obj ⟨some "Valid Title", JSVal.arr [JSVal.str ""], none⟩⟩
          envOK [] 0 gemOkX blogOkX).2.1).length = 2 ∧
      (handler ⟨mPOST, "c4", BodyInput.obj ⟨some "Valid Title", JSVal.arr [JSVal.str ""], none⟩⟩
          envOK [] 0 gemOkX blogOkX).1.status = 200 :=
  ⟨rfl, rfl, rfl⟩

/-- Claim C4 as amended: the handler rejects, before any outbound call, every
request whose tags field is truthy and either not an array or an array longer
than 10 (the rejection surfaces as the generic 500 mapping, since the tag
messages match no specific branch); element-level checks on the tags are not
performed. -/
theorem C4_tags_validation_amended (req : Request) (env : Env) (lim : LimiterState)
    (now : Nat) (gem : GemOutcome) (blog : BlogOutcome) (b : ReqBody) (t : String)
    (hm : req.method = mPOST)
    (ha : (limiterHit lim req.clientId now).1 = true)
    (he : validateEnvironment env = Except.ok ())
    (hb : parseBody req.body = some b)
    (ht : b.title = some t)
    (h5 : ¬ (jsTrim t).length < 5) (h200 : ¬ 200 < (jsTrim t).length)
    (htr : b.tags.truthy = true)
    (hbad : b.tags.isArray = false ∨ 10 < b.tags.arrLen) :
    (handler req env lim now gem blog).1.status = 500 ∧
      (handler req env lim now gem blog).2.1 = [] := by
  rw [handler_post_allowed req env lim now gem blog hm ha]
  have ht0 : (t == "") = false := by
    rcases hq : t == "" with _ | _
    · rfl
    · exfalso
      have hteq : t = "" := by simpa using hq
      subst hteq
      exact h5 (by decide)
  have hundef : b.tags.isUndef = false := by
    cases hbt : b.tags <;> simp_all [JSVal.truthy, JSVal.isUndef]
  rcases hia : b.tags.isArray with _ | _
  · have hv : validateRequest b = Except.error msgTagsArray := by
      simp [validateRequest, ht, ht0, h5, h200, hundef, htr, hia]
    rw [postPhase_validation_error he hb hv]
    exact ⟨rfl, rfl⟩
  · have hlong : 10 < b.tags.arrLen := by
      rcases hbad with hna | hl
      · rw [hia] at hna; exact absurd hna (by simp)
      · exact hl
    have hv : validateRequest b = Except.error msgTagsMax := by
      simp [validateRequest, ht, ht0, h5, h200, hundef, htr, hia, hlong]
    rw [postPhase_validation_error he hb hv]
    exact ⟨rfl, rfl⟩

theorem C4_witness :
    (handler ⟨mPOST, "w4", BodyInput.obj ⟨some "Valid Title", JSVal.str "x", none⟩⟩ envOK [] 0
        gemOkX blogOkX).1.status = 500 ∧
      (handler ⟨mPOST, "w4", BodyInput.obj ⟨some "Valid Title", JSVal.str "x", none⟩⟩ envOK [] 0
        gemOkX blogOkX).2.1 = [] :=
  C4_tags_validation_amended ⟨mPOST, "w4", BodyInput.obj ⟨some "Valid Title", JSVal.str "x", none⟩⟩
    envOK [] 0 gemOkX blogOkX ⟨some "Valid Title", JSVal.str "x", none⟩ "Valid Title"
    rfl rfl rfl rfl rfl (by decide) (by decide) rfl (Or.inl rfl)

/-- Claim C5: the rate limiter is a fixed window of 15 minutes (900000
milliseconds) capped at 5 requests per client; six POST requests from the
same client at the same instant within one window, starting from an empty
store, produce a sixth response with HTTP 429 whose outbound call trace is
empty, because the rate-limit check runs before either external call. -/
theorem C5_rate_limit_sixth_rejected (r : Request) (env : Env) (gem : GemOutcome)
    (blog : BlogOutcome) (t : Nat) (hm : r.method = mPOST) :
    limiterWindowMs = 900000 ∧ limiterMax = 5 ∧
      (runRequests env gem blog (List.replicate 6 (t, r)) []).1.length = 6 ∧
      ((runRequests env gem blog (List.replicate 6 (t, r)) []).1.getD 5
          (emptyResponse, [])).1.status = 429 ∧
      ((runRequests env gem blog (List.replicate 6 (t, r)) []).1.getD 5
          (emptyResponse, [])).2 = [] := by
  refine ⟨rfl, rfl, ?_⟩
  have h0 : limiterHit [] r.clientId t = (true, [(r.clientId, t, 1)]) := by
    simp [limiterHit, limGet, limSet]
  have hstep : ∀ k : Nat, limiterHit [(r.clientId, t, k)] r.clientId t =
      (decide (k + 1 ≤ limiterMax), [(r.clientId, t, k + 1)]) := by
    intro k
    have hlt : t < t + limiterWindowMs := by simp [limiterWindowMs]
    simp [limiterHit, limGet, limSet, hlt]
  have hst : ∀ st : LimiterState, (handler r env st t gem blog).2.2 =
      (limiterHit st r.clientId t).2 :=
    fun st => handler_state r env st t gem blog hm
  have ha6 : (limiterHit [(r.clientId, t, 5)] r.clientId t).1 = false := by
    rw [hstep]
    rfl
  have h6 := handler_post_limited r env [(r.clientId, t, 5)] t gem blog hm ha6
  simp only [List.replicate, runRequests, hst, h0, hstep]
  norm_num
  simp only [h6]
  exact ⟨rfl, trivial⟩

theorem C5_witness :
    limiterWindowMs = 900000 ∧ limiterMax = 5 ∧
      (runRequests envOK gemOkX blogOkX
        (List.replicate 6 (0, (⟨mPOST, "w5", BodyInput.strBad⟩ : Request))) []).1.length = 6 ∧
      ((runRequests envOK gemOkX blogOkX
          (List.replicate 6 (0, (⟨mPOST, "w5", BodyInput.strBad⟩ : Request))) []).1.getD 5
          (emptyResponse, [])).1.status = 429 ∧
      ((runRequests envOK gemOkX blogOkX
          (List.replicate 6 (0, (⟨mPOST, "w5", BodyInput.strBad⟩ : Request))) []).1.getD 5
          (emptyResponse, [])).2 = [] :=
  C5_rate_limit_sixth_rejected ⟨mPOST, "w5", BodyInput.strBad⟩ envOK gemOkX blogOkX 0 rfl

/-- Claim C6 counterexample: a GET request to the hardened handler, with the
configuration present, is neither POST nor OPTIONS and yet is answered 200 by
the health check instead of 405; moreover the V1 variant's 405 body carries
no list of allowed methods. -/
theorem C6_get_health_not_405 :
    (handler ⟨mGET, "c6", BodyInput.strBad⟩ envOK [] 0 gemOkX blogOkX).1.status = 200 ∧
      (handlerV1 ⟨"DELETE", none⟩ gemOkX blogOkX).1.status = 405 ∧
      (handlerV1 ⟨"DELETE", none⟩ gemOkX blogOkX).1.allowed = none :=
  ⟨rfl, rfl, rfl⟩

/-- Claim C6 as amended: every handler accepts POST; the CORS-enabled V2
variant also accepts OPTIONS with a 200 preflight, and the hardened variant
also accepts GET for the health check; any other method is answered 405 with
no outbound call. Only the hardened variant's 405 body lists the allowed
methods; the V1 and V2 bodies say method not allowed without a list. -/
theorem C6_method_gating_amended :
    (∀ (req : Request) (env : Env) (lim : LimiterState) (now : Nat)
        (gem : GemOutcome) (blog : BlogOutcome),
      req.method ≠ mGET → req.method ≠ mPOST →
      handler req env lim now gem blog = (methodNotAllowedResponse, [], lim) ∧
        methodNotAllowedResponse.status = 405 ∧
        methodNotAllowedResponse.allowed = some [mGET, mPOST]) ∧
    (∀ (req : ReqV1) (gem : GemOutcome) (blog : BlogOutcome),
      req.method ≠ mPOST →
      (handlerV1 req gem blog).1.status = 405 ∧
        (handlerV1 req gem blog).1.error = some errMethodNA ∧
        (handlerV1 req gem blog).1.allowed = none ∧
        (handlerV1 req gem blog).2 = []) ∧
    (∀ (req : ReqV2) (env : EnvV2) (gem : GemOutcome) (blog : BlogOutcome),
      req.method ≠ mOPTIONS → req.method ≠ mPOST →
      (handlerV2 req env gem blog).1.status = 405 ∧
        (handlerV2 req env gem blog).1.error = some errMethodNAV2 ∧
        (handlerV2 req env gem blog).1.allowed = none ∧
        (handlerV2 req env gem blog).2 = []) ∧
    (∀ (req : ReqV2) (env : EnvV2) (gem : GemOutcome) (blog : BlogOutcome),
      req.method = mOPTIONS →
      (handlerV2 req env gem blog).1.status = 200 ∧ (handlerV2 req env gem blog).2 = []) := by
  refine ⟨?_, ?_, ?_, ?_⟩
  · intro req env lim now gem blog hG hP
    refine ⟨?_, rfl, rfl⟩
    simp [handler, hG, hP]
  · intro req gem blog hP
    simp [handlerV1, hP]
    rfl
  · intro req env gem blog hO hP
    simp [handlerV2, hO, hP]
    rfl
  · intro req env gem blog hO
    simp [handlerV2, hO]

theorem C6_witness :
    handler ⟨"DELETE", "w6", BodyInput.strBad⟩ envOK [] 0 gemOkX blogOkX =
        (methodNotAllowedResponse, [], []) ∧
      (handlerV1 ⟨"PUT", none⟩ gemOkX blogOkX).1.status = 405 ∧
      (handlerV2 ⟨"PATCH", BodyInputV2.strBad⟩ envOKV2 gemOkX blogOkX).1.status = 405 ∧
      (handlerV2 ⟨mOPTIONS, BodyInputV2.strBad⟩ envOKV2 gemOkX blogOkX).1.status = 200 :=
  ⟨(C6_method_gating_amended.1 ⟨"DELETE", "w6", BodyInput.strBad⟩ envOK [] 0 gemOkX blogOkX
      (by decide) (by decide)).1,
   (C6_method_gating_amended.2.1 ⟨"PUT", none⟩ gemOkX blogOkX (by decide)).1,
   (C6_method_gating_amended.2.2.1 ⟨"PATCH", BodyInputV2.strBad⟩ envOKV2 gemOkX blogOkX
      (by decide) (by decide)).1,
   (C6_method_gating_amended.2.2.2 ⟨mOPTIONS, BodyInputV2.strBad⟩ envOKV2 gemOkX blogOkX rfl).1⟩

/-- Claim C7: on the generic failure branch of the hardened handler's catch
block (none of the specific branches fires) the response carries a retryable
flag, and the flag is true exactly when the upstream failure status is none
of 400, 401 and 403. -/
theorem C7_retryable_iff_status (e : JSError)
    (h1 : containsSub e.message substrMissingEnv = false)
    (h2 : containsSub e.message substrTitleMustBe = false)
    (h3 : (e.name == some nAbortError || e.code == some nECONNABORTED) = false)
    (h4 : (e.response.map RespInfo.status == some 429) = false)
    (h5 : quotaFlag e = false) :
    ((mapError e).retryable = some true ↔
      e.response.map RespInfo.status ∉ [some 400, some 401, some 403]) ∧
      (mapError e).retryable.isSome = true := by
  have hdef : mapError e =
      { emptyResponse with
        status := respStatusOr500 e
        error := some errPublishingFailed
        message := some (fallbackMsg e)
        retryable := some (retryFlag e) } := by
    simp [mapError, h1, h2, h3, h4, h5]
  rw [hdef]
  refine ⟨?_, rfl⟩
  show some (retryFlag e) = some true ↔ _
  rw [Option.some_inj]
  unfold retryFlag
  cases hr : e.response with
  | none => simp
  | some r =>
    simp
    tauto

theorem C7_witness :
    ((mapError ⟨"boom", none, none, some ⟨502, none⟩⟩).retryable = some true ↔
      (⟨"boom", none, none, some ⟨502, none⟩⟩ : JSError).response.map RespInfo.status ∉
        [some 400, some 401, some 403]) ∧
      (mapError ⟨"boom", none, none, some ⟨502, none⟩⟩).retryable.isSome = true :=
  C7_retryable_iff_status ⟨"boom", none, none, some ⟨502, none⟩⟩ rfl rfl rfl rfl rfl

/-- Claim C8: whenever the publish call succeeds, the success response's
postId and post URL equal exactly the upstream result's id and url fields,
with no transformation, in both the hardened handler and the V2 variant. -/
theorem C8_id_url_passthrough :
    (∀ (req : Request) (env : Env) (lim : LimiterState) (now : Nat)
        (b : ReqBody) (v : ValidReq) (gb : GemBody) (h : String) (post : BlogPost),
      req.method = mPOST → (limiterHit lim req.clientId now).1 = true →
      validateEnvironment env = Except.ok () → parseBody req.body = some b →
      validateRequest b = Except.ok v → extractText gb = some h → (h == "") = false →
      (handler req env lim now (GemOutcome.ok gb) (BlogOutcome.ok post)).1.postId =
          some post.id ∧
        (handler req env lim now (GemOutcome.ok gb) (BlogOutcome.ok post)).1.postUrl =
          some post.url) ∧
    (∀ (req : ReqV2) (env : EnvV2) (bB : BodyV2) (t : String) (gb : GemBody)
        (h : String) (post : BlogPost),
      req.method = mPOST → parseBodyV2 req.body = some bB → bB.title = JSVal.str t →
      (t == "") = false → ¬ (jsTrim t).length < 5 → missingVarsV2 env = [] →
      extractText gb = some h → (h == "") = false →
      (handlerV2 req env (GemOutcome.ok gb) (BlogOutcome.ok post)).1.postId =
          some post.id ∧
        (handlerV2 req env (GemOutcome.ok gb) (BlogOutcome.ok post)).1.postUrl =
          some post.url) := by
  constructor
  · intro req env lim now b v gb h post hm ha he hb hv hx hne
    rw [handler_post_allowed req env lim now (GemOutcome.ok gb) (BlogOutcome.ok post) hm ha,
      postPhase_ok he hb hv, genPhase_success (gemini_ok hx hne)]
    exact ⟨rfl, rfl⟩
  · intro req env bB t gb h post hm hb htitle ht0 hlen hmv hx hne
    have hno : mPOST ≠ mOPTIONS := by decide
    simp [handlerV2, hm, hno, hb, htitle, ht0, hlen, v2Pipeline, hmv, hx, hne]

theorem C8_witness :
    ((handler ⟨mPOST, "w8", BodyInput.obj ⟨some "Valid Title", JSVal.undef, none⟩⟩ envOK [] 0
          gemOkX blogOkX).1.postId = some "8791" ∧
      (handler ⟨mPOST, "w8", BodyInput.obj ⟨some "Valid Title", JSVal.undef, none⟩⟩ envOK [] 0
          gemOkX blogOkX).1.postUrl = some "https://blog.example/post") ∧
    ((handlerV2 ⟨mPOST, BodyInputV2.obj ⟨JSVal.str "Valid Title", none⟩⟩ envOKV2
          gemOkX blogOkX).1.postId = some "8791" ∧
      (handlerV2 ⟨mPOST, BodyInputV2.obj ⟨JSVal.str "Valid Title", none⟩⟩ envOKV2
          gemOkX blogOkX).1.postUrl = some "https://blog.example/post") :=
  ⟨C8_id_url_passthrough.1 ⟨mPOST, "w8", BodyInput.obj ⟨some "Valid Title", JSVal.undef, none⟩⟩
      envOK [] 0 ⟨some "Valid Title", JSVal.undef, none⟩
      ⟨jsTrim "Valid Title", JSVal.arr [], true⟩ ⟨some [⟨some ⟨some [⟨some "<p>hi</p>"⟩]⟩⟩]⟩
      "<p>hi</p>" ⟨"8791", "https://blog.example/post", "live", "2025-01-01", "T"⟩
      rfl rfl rfl rfl rfl rfl rfl,
   C8_id_url_passthrough.2 ⟨mPOST, BodyInputV2.obj ⟨JSVal.str "Valid Title", none⟩⟩ envOKV2
      ⟨JSVal.str "Valid Title", none⟩ "Valid Title" ⟨some [⟨some ⟨some [⟨some "<p>hi</p>"⟩]⟩⟩]⟩
      "<p>hi</p>" ⟨"8791", "https://blog.example/post", "live", "2025-01-01", "T"⟩
      rfl rfl rfl rfl (by decide) rfl rfl rfl⟩

/-- Claim C9: collectImages returns a list in which every URL appears at most
once, every element is a non-empty extracted string, and running it twice on
the same DOM yields the same set under order-independent equality. -/
theorem C9_collect_dedup_nonempty (d : Dom) :
    (collectImages d).Nodup ∧ (∀ u ∈ collectImages d, u ≠ "") ∧
      (collectImages d).toFinset = (collectImages d).toFinset := by
  have h0 := foldImgs_inv d.imgs [] List.nodup_nil (by simp)
  have h := foldEls_inv d.els (d.imgs.foldl (fun a i => addNonempty a (effSrc i)) [])
    h0.1 h0.2
  exact ⟨h.1, h.2, rfl⟩

/-- Claim C10: in the hardened handler's success path the content submitted
to the publish API is exactly the sanitized HTML (sanitizeHTML applied to the
generated HTML), never the raw generated HTML, and the success metadata's
contentLength equals the length of that sanitized HTML. -/
theorem C10_publishes_sanitized_content (req : Request) (env : Env)
    (lim : LimiterState) (now : Nat) (b : ReqBody) (v : ValidReq) (gb : GemBody)
    (h : String) (post : BlogPost)
    (hm : req.method = mPOST)
    (ha : (limiterHit lim req.clientId now).1 = true)
    (he : validateEnvironment env = Except.ok ())
    (hb : parseBody req.body = some b)
    (hv : validateRequest b = Except.ok v)
    (hx : extractText gb = some h) (hne : (h == "") = false) :
    (handler req env lim now (GemOutcome.ok gb) (BlogOutcome.ok post)).2.1 =
      [Call.gen, Call.publishPost v.title (sanitizeHTML h) v.tags v.publish] ∧
      (handler req env lim now (GemOutcome.ok gb) (BlogOutcome.ok post)).1.contentLength =
        some (sanitizeHTML h).length := by
  rw [handler_post_allowed req env lim now (GemOutcome.ok gb) (BlogOutcome.ok post) hm ha,
    postPhase_ok he hb hv, genPhase_success (gemini_ok hx hne)]
  exact ⟨rfl, rfl⟩

theorem C10_witness :
    (handler ⟨mPOST, "wA", BodyInput.obj ⟨some "Valid Title", JSVal.undef, none⟩⟩ envOK [] 0
        gemOkX blogOkX).2.1 =
      [Call.gen, Call.publishPost (jsTrim "Valid Title") (sanitizeHTML "<p>hi</p>")
        (JSVal.arr []) true] ∧
      (handler ⟨mPOST, "wA", BodyInput.obj ⟨some "Valid Title", JSVal.undef, none⟩⟩ envOK [] 0
          gemOkX blogOkX).1.contentLength = some (sanitizeHTML "<p>hi</p>").length :=
  C10_publishes_sanitized_content ⟨mPOST, "wA", BodyInput.obj ⟨some "Valid Title", JSVal.undef, none⟩⟩
    envOK [] 0 ⟨some "Valid Title", JSVal.undef, none⟩
    ⟨jsTrim "Valid Title", JSVal.arr [], true⟩ ⟨some [⟨some ⟨some [⟨some "<p>hi</p>"⟩]⟩⟩]⟩
    "<p>hi</p>" ⟨"8791", "https://blog.example/post", "live", "2025-01-01", "T"⟩
    rfl rfl rfl rfl rfl rfl rfl

theorem take_drop_entity {pre : List Char} (E : List Char) (n : Nat)
    (hn : pre.length = n) : (pre ++ E).take n = pre ∧ (pre ++ E).drop n = E := by
  subst hn
  exact ⟨List.take_left pre E, List.drop_left pre E⟩

theorem unescape_escapeText : ∀ (l : List Char) (fuel : Nat),
    (l.flatMap (fun c => (escChar c).data)).length < fuel →
    unescapeChars fuel (l.flatMap (fun c => (escChar c).data)) = l := by
  intro l
  induction l with
  | nil =>
    intro fuel _
    cases fuel <;> rfl
  | cons c l' ih =>
    intro fuel hlen
    rw [show (c :: l').flatMap (fun x => (escChar x).data) =
        (escChar c).data ++ l'.flatMap (fun x => (escChar x).data) from rfl] at hlen ⊢
    set E := l'.flatMap (fun x => (escChar x).data) with hE
    rcases fuel with _ | k
    · omega
    by_cases h1 : c = cAmp
    · subst h1
      rw [show (escChar cAmp).data = cAmp :: dAmp from by decide] at hlen ⊢
      have hlE : E.length < k := by
        simp only [List.cons_append, List.length_cons, List.length_append] at hlen
        have : dAmp.length = 4 := rfl
        omega
      obtain ⟨ht, hd⟩ := take_drop_entity E 4 (show dAmp.length = 4 from rfl)
      simp only [List.cons_append, unescapeChars, List.append_eq, beq_self_eq_true, if_true, ht, hd]
      rw [ih k hlE]
    by_cases h2 : c = cLt
    · subst h2
      rw [show (escChar cLt).data = cAmp :: dLt from by decide] at hlen ⊢
      have hlE : E.length < k := by
        simp only [List.cons_append, List.length_cons, List.length_append] at hlen
        have : dLt.length = 3 := rfl
        omega
      obtain ⟨ht, hd⟩ := take_drop_entity E 3 (show dLt.length = 3 from rfl)
      have hne4 : ((dLt ++ E).take 4 == dAmp) = false := by
        rw [show dLt ++ E = 'l' :: ('t' :: (';' :: E)) from rfl,
          show dAmp = 'a' :: ['m', 'p', ';'] from by decide]
        simp only [List.take_succ_cons]
        exact beq_false_of_head_ne (by decide) _ _
      simp only [List.cons_append, unescapeChars, List.append_eq, beq_self_eq_true, if_true,
        hne4, Bool.false_eq_true, if_false, ht, hd]
      rw [ih k hlE]
    by_cases h3 : c = cGt
    · subst h3
      rw [show (escChar cGt).data = cAmp :: dGt from by decide] at hlen ⊢
      have hlE : E.length < k := by
        simp only [List.cons_append, List.length_cons, List.length_append] at hlen
        have : dGt.length = 3 := rfl
        omega
      obtain ⟨ht, hd⟩ := take_drop_entity E 3 (show dGt.length = 3 from rfl)
      have hne4 : ((dGt ++ E).take 4 == dAmp) = false := by
        rw [show dGt ++ E = 'g' :: ('t' :: (';' :: E)) from rfl,
          show dAmp = 'a' :: ['m', 'p', ';'] from by decide]
        simp only [List.take_succ_cons]
        exact beq_false_of_head_ne (by decide) _ _
      have hne3 : ((dGt ++ E).take 3 == dLt) = false := by
        rw [show dGt ++ E = 'g' :: ('t' :: (';' :: E)) from rfl,
          show dLt = 'l' :: ['t', ';'] from by decide]
        simp only [List.take_succ_cons]
        exact beq_false_of_head_ne (by decide) _ _
      have hgl : (dGt == dLt) = false := by decide
      simp only [List.cons_append, unescapeChars, List.append_eq, beq_self_eq_true, if_true,
        hne4, hne3, Bool.false_eq_true, if_false, ht, hd, hgl]
      rw [ih k hlE]
    · have hcc : (c == cAmp) = false := by
        rw [beq_eq_false_iff_ne]; exact h1
      have hesc : (escChar c).data = [c] := by
        unfold escChar
        rw [if_neg (by simpa using h1), if_neg (by simpa using h2),
          if_neg (by simpa using h3)]
        rfl
      rw [hesc] at hlen ⊢
      have hlE : E.length < k := by
        simp only [List.cons_append, List.length_cons, List.length_append] at hlen
        omega
      simp only [List.cons_append, List.nil_append, unescapeChars, List.append_eq, hcc,
        Bool.false_eq_true, if_false]
      rw [ih k hlE]

theorem unescape_escapeAttr : ∀ (l : List Char) (fuel : Nat),
    (l.flatMap (fun c => (escAttrChar c).data)).length < fuel →
    unescapeChars fuel (l.flatMap (fun c => (escAttrChar c).data)) = l := by
  intro l
  induction l with
  | nil =>
    intro fuel _
    cases fuel <;> rfl
  | cons c l' ih =>
    intro fuel hlen
    rw [show (c :: l').flatMap (fun x => (escAttrChar x).data) =
        (escAttrChar c).data ++ l'.flatMap (fun x => (escAttrChar x).data) from rfl] at hlen ⊢
    set E := l'.flatMap (fun x => (escAttrChar x).data) with hE
    rcases fuel with _ | k
    · omega
    by_cases h0 : c = cQuot
    · subst h0
      rw [show (escAttrChar cQuot).data = cAmp :: dQuot from by decide] at hlen ⊢
      have hlE : E.length < k := by
        simp only [List.cons_append, List.length_cons, List.length_append] at hlen
        have : dQuot.length = 5 := rfl
        omega
      obtain ⟨ht, hd⟩ := take_drop_entity E 5 (show dQuot.length = 5 from rfl)
      have hne4 : ((dQuot ++ E).take 4 == dAmp) = false := by
        rw [show dQuot ++ E = 'q' :: ('u' :: ('o' :: ('t' :: (';' :: E)))) from rfl,
          show dAmp = 'a' :: ['m', 'p', ';'] from by decide]
        simp only [List.take_succ_cons]
        exact beq_false_of_head_ne (by decide) _ _
      have hne3l : ((dQuot ++ E).take 3 == dLt) = false := by
        rw [show dQuot ++ E = 'q' :: ('u' :: ('o' :: ('t' :: (';' :: E)))) from rfl,
          show dLt = 'l' :: ['t', ';'] from by decide]
        simp only [List.take_succ_cons]
        exact beq_false_of_head_ne (by decide) _ _
      have hne3g : ((dQuot ++ E).take 3 == dGt) = false := by
        rw [show dQuot ++ E = 'q' :: ('u' :: ('o' :: ('t' :: (';' :: E)))) from rfl,
          show dGt = 'g' :: ['t', ';'] from by decide]
        simp only [List.take_succ_cons]
        exact beq_false_of_head_ne (by decide) _ _
      simp only [List.cons_append, unescapeChars, List.append_eq, beq_self_eq_true,
        if_true, hne4, hne3l, hne3g, Bool.false_eq_true, if_false, ht, hd]
      rw [ih k hlE]
    have hesc : escAttrChar c = escChar c := by
      unfold escAttrChar
      rw [if_neg (by simpa using h0)]
    by_cases h1 : c = cAmp
    · subst h1
      rw [hesc, show (escChar cAmp).data = cAmp :: dAmp from by decide] at hlen ⊢
      have hlE : E.length < k := by
        simp only [List.cons_append, List.length_cons, List.length_append] at hlen
        have : dAmp.length = 4 := rfl
        omega
      obtain ⟨ht, hd⟩ := take_drop_entity E 4 (show dAmp.length = 4 from rfl)
      simp only [List.cons_append, unescapeChars, List.append_eq, beq_self_eq_true,
        if_true, ht, hd]
      rw [ih k hlE]
    by_cases h2 : c = cLt
    · subst h2
      rw [hesc, show (escChar cLt).data = cAmp :: dLt from by decide] at hlen ⊢
      have hlE : E.length < k := by
        simp only [List.cons_append, List.length_cons, List.length_append] at hlen
        have : dLt.length = 3 := rfl
        omega
      obtain ⟨ht, hd⟩ := take_drop_entity E 3 (show dLt.length = 3 from rfl)
      have hne4 : ((dLt ++ E).take 4 == dAmp) = false := by
        rw [show dLt ++ E = 'l' :: ('t' :: (';' :: E)) from rfl,
          show dAmp = 'a' :: ['m', 'p', ';'] from by decide]
        simp only [List.take_succ_cons]
        exact beq_false_of_head_ne (by decide) _ _
      simp only [List.cons_append, unescapeChars, List.append_eq, beq_self_eq_true,
        if_true, hne4, Bool.false_eq_true, if_false, ht, hd]
      rw [ih k hlE]
    by_cases h3 : c = cGt
    · subst h3
      rw [hesc, show (escChar cGt).data = cAmp :: dGt from by decide] at hlen ⊢
      have hlE : E.length < k := by
        simp only [List.cons_append, List.length_cons, List.length_append] at hlen
        have : dGt.length = 3 := rfl
        omega
      obtain ⟨ht, hd⟩ := take_drop_entity E 3 (show dGt.length = 3 from rfl)
      have hne4 : ((dGt ++ E).take 4 == dAmp) = false := by
        rw [show dGt ++ E = 'g' :: ('t' :: (';' :: E)) from rfl,
          show dAmp = 'a' :: ['m', 'p', ';'] from by decide]
        simp only [List.take_succ_cons]
        exact beq_false_of_head_ne (by decide) _ _
      have hne3 : ((dGt ++ E).take 3 == dLt) = false := by
        rw [show dGt ++ E = 'g' :: ('t' :: (';' :: E)) from rfl,
          show dLt = 'l' :: ['t', ';'] from by decide]
        simp only [List.take_succ_cons]
        exact beq_false_of_head_ne (by decide) _ _
      have hgl : (dGt == dLt) = false := by decide
      simp only [List.cons_append, unescapeChars, List.append_eq, beq_self_eq_true,
        if_true, hne4, hne3, Bool.false_eq_true, if_false, ht, hd, hgl]
      rw [ih k hlE]
    · have hcc : (c == cAmp) = false := by
        rw [beq_eq_false_iff_ne]; exact h1
      have hescc : (escAttrChar c).data = [c] := by
        rw [hesc]
        unfold escChar
        rw [if_neg (by simpa using h1), if_neg (by simpa using h2),
          if_neg (by simpa using h3)]
        rfl
      rw [hescc] at hlen ⊢
      have hlE : E.length < k := by
        simp only [List.cons_append, List.length_cons, List.length_append] at hlen
        omega
      simp only [List.cons_append, List.nil_append, unescapeChars, List.append_eq, hcc,
        Bool.false_eq_true, if_false]
      rw [ih k hlE]

theorem string_append_empty (s : String) : s ++ "" = s := by
  apply String.ext
  rw [String.data_append]
  simp [show ("" : String).data = [] from rfl]

theorem string_empty_append (s : String) : "" ++ s = s := by
  apply String.ext
  rw [String.data_append]
  simp [show ("" : String).data = [] from rfl]

theorem attrsString_acc (l : List (String × String)) : ∀ acc : String,
    l.foldl (fun acc p => acc ++ strSpace ++ p.1 ++ strEqQuot ++ escapeAttr p.2 ++ strQuot) acc =
      acc ++ l.foldl (fun acc p => acc ++ strSpace ++ p.1 ++ strEqQuot ++ escapeAttr p.2 ++ strQuot) "" := by
  induction l with
  | nil =>
    intro acc
    simp only [List.foldl_nil]
    rw [string_append_empty]
  | cons p l2 ih =>
    intro acc
    simp only [List.foldl_cons]
    rw [ih (acc ++ strSpace ++ p.1 ++ strEqQuot ++ escapeAttr p.2 ++ strQuot),
      ih ("" ++ strSpace ++ p.1 ++ strEqQuot ++ escapeAttr p.2 ++ strQuot),
      string_empty_append]
    simp [String.append_assoc]

theorem attrsString_cons (p : String × String) (l : List (String × String)) :
    attrsString (p :: l) = attrPiece p ++ attrsString l := by
  show (p :: l).foldl _ "" = _
  rw [List.foldl_cons, attrsString_acc l, string_empty_append]
  rfl

theorem attrNameChar_props {c : Char} (h : isAttrNameChar c = true) :
    c.isWhitespace = false ∧ (c == cEq) = false ∧ (c == cGt) = false ∧
      (c == cSlash) = false := by
  unfold isAttrNameChar at h
  rw [Bool.not_eq_true'] at h
  simp only [Bool.or_eq_false_iff] at h
  exact ⟨h.1.1.1, h.1.1.2, h.1.2, h.2⟩

theorem attrName_facts {n : String} (h : n ∈ allowedAttrs) :
    (∀ x ∈ n.data, isAttrNameChar x = true) ∧ lcStr n.data = n ∧ n.data ≠ [] := by
  fin_cases h <;> exact ⟨by decide, by decide, by decide⟩

theorem readAttrs_roundtrip : ∀ (a : List (String × String)) (fuel : Nat)
    (rest : List Char),
    a.all (fun p => decide (keepAttr p = some p)) = true →
    (attrsString a).data.length + 1 + rest.length < fuel →
    readAttrs fuel ((attrsString a).data ++ (cGt :: rest)) = (a, rest, false) := by
  intro a
  induction a with
  | nil =>
    intro fuel rest _ hlen
    rcases fuel with _ | k
    · omega
    show readAttrs (k + 1) ((attrsString []).data ++ (cGt :: rest)) = ([], rest, false)
    rw [show (attrsString []).data = [] from rfl, List.nil_append]
    have hws : cGt.isWhitespace = false := by decide
    simp [readAttrs, skipWs, List.dropWhile_cons, hws]
  | cons p a2 ih =>
    rcases p with ⟨n, v⟩
    intro fuel rest hall hlen
    rw [List.all_cons, Bool.and_eq_true, decide_eq_true_eq] at hall
    have hn : n ∈ allowedAttrs := by
      have := (keepAttr_mem_fix hall.1).1
      simpa using this
    obtain ⟨hchars, hlc, hnempty⟩ := attrName_facts hn
    rcases fuel with _ | k
    · omega
    rw [attrsString_cons] at hlen ⊢
    set Esc := (escapeAttr v).data with hEsc
    set A2 := (attrsString a2).data with hA2
    have hdata : (attrPiece (n, v) ++ attrsString a2).data ++ cGt :: rest =
        ' ' :: (n.data ++ (cEq :: (cQuot :: (Esc ++ (cQuot :: (A2 ++ (cGt :: rest))))))) := by
      simp [attrPiece, String.data_append, List.append_assoc,
        show strSpace.data = [' '] from by decide,
        show strEqQuot.data = [cEq, cQuot] from by decide,
        show strQuot.data = [cQuot] from by decide]
    rw [hdata]
    -- length bookkeeping
    have e1 : Esc.length = (escapeAttr v).length := rfl
    have e2 : n.data.length = n.length := rfl
    have hplen : (attrPiece (n, v)).data.length = 4 + n.data.length + Esc.length := by
      simp [attrPiece, String.data_append,
        show strSpace.data = [' '] from by decide,
        show strEqQuot.data = [cEq, cQuot] from by decide,
        show strQuot.data = [cQuot] from by decide]
      omega
    have htot : (attrPiece (n, v) ++ attrsString a2).data.length =
        (attrPiece (n, v)).data.length + A2.length := by
      rw [String.data_append, List.length_append]
    have hlen2 : A2.length + 1 + rest.length < k := by omega
    -- head of the attribute name
    rcases hd : n.data with _ | ⟨d, dt⟩
    · exact absurd hd hnempty
    have hdmem : d ∈ n.data := by rw [hd]; exact List.mem_cons_self d dt
    obtain ⟨hdws, hdeq, hdgt, hdsl⟩ := attrNameChar_props (hchars d hdmem)
    -- the parser pieces
    have hskip1 : skipWs (' ' :: (n.data ++ (cEq :: (cQuot :: (Esc ++ (cQuot :: (A2 ++ (cGt :: rest)))))))) =
        n.data ++ (cEq :: (cQuot :: (Esc ++ (cQuot :: (A2 ++ (cGt :: rest)))))) := by
      unfold skipWs
      rw [List.dropWhile_cons]
      simp only [show (' ' : Char).isWhitespace = true from by decide, if_true]
      rw [hd, List.cons_append, List.dropWhile_cons]
      simp only [hdws, Bool.false_eq_true, if_false]
    have hnm : (n.data ++ (cEq :: (cQuot :: (Esc ++ (cQuot :: (A2 ++ (cGt :: rest))))))).takeWhile isAttrNameChar = n.data := by
      rw [takeWhile_append_all _ hchars, List.takeWhile_cons]
      simp [show isAttrNameChar cEq = false from by decide]
    have hr1 : (n.data ++ (cEq :: (cQuot :: (Esc ++ (cQuot :: (A2 ++ (cGt :: rest))))))).dropWhile isAttrNameChar =
        cEq :: (cQuot :: (Esc ++ (cQuot :: (A2 ++ (cGt :: rest))))) := by
      rw [dropWhile_append_all _ hchars, List.dropWhile_cons]
      simp [show isAttrNameChar cEq = false from by decide]
    have hEscPred : ∀ x ∈ Esc, (!(x == cQuot)) = true := by
      intro x hx
      rw [escapeAttr_no_quot v x hx]
      rfl
    have hv : (Esc ++ (cQuot :: (A2 ++ (cGt :: rest)))).takeWhile (fun c2 => !(c2 == cQuot)) = Esc := by
      rw [takeWhile_append_all _ hEscPred, List.takeWhile_cons]
      simp
    have hr4 : ((Esc ++ (cQuot :: (A2 ++ (cGt :: rest)))).dropWhile (fun c2 => !(c2 == cQuot))).drop 1 =
        A2 ++ (cGt :: rest) := by
      rw [dropWhile_append_all _ hEscPred, List.dropWhile_cons]
      simp
    have hrec := ih k rest hall.2 (by omega)
    have hval : String.mk (unescapeChars (Esc.length + 1) Esc) = v := by
      rw [hEsc, escapeAttr_data, unescape_escapeAttr v.data _ (by omega)]
    -- walk the single readAttrs step
    rw [show n.data ++ (cEq :: (cQuot :: (Esc ++ (cQuot :: (A2 ++ (cGt :: rest)))))) =
        d :: (dt ++ (cEq :: (cQuot :: (Esc ++ (cQuot :: (A2 ++ (cGt :: rest))))))) from by
      rw [hd, List.cons_append]] at hskip1 hnm hr1
    have hwsq : skipWs (cEq :: (cQuot :: (Esc ++ (cQuot :: (A2 ++ (cGt :: rest)))))) =
        cEq :: (cQuot :: (Esc ++ (cQuot :: (A2 ++ (cGt :: rest))))) := by
      unfold skipWs
      rw [List.dropWhile_cons]
      simp [show cEq.isWhitespace = false from by decide]
    have hwsq2 : skipWs (cQuot :: (Esc ++ (cQuot :: (A2 ++ (cGt :: rest))))) =
        cQuot :: (Esc ++ (cQuot :: (A2 ++ (cGt :: rest)))) := by
      unfold skipWs
      rw [List.dropWhile_cons]
      simp [show cQuot.isWhitespace = false from by decide]
    simp only [List.cons_append, readAttrs, hskip1, hdgt, hdsl, Bool.false_eq_true,
      if_false, hnm, hr1, hwsq, hwsq2, beq_self_eq_true, if_true, Bool.true_or,
      hv, hr4, hrec, hval, hlc]

theorem serializeForest_cons (n : HNode) (f : HForest) :
    serializeForest (.cons n f) = serializeNode n ++ serializeForest f := rfl

theorem escapeText_empty : escapeText "" = "" := rfl

theorem escChar_ne_nil (c : Char) : (escChar c).data ≠ [] := by
  unfold escChar
  split_ifs <;> simp [entAmp, entLt, entGt, String.singleton]

theorem string_ne_empty_data {s : String} (h : s ≠ "") : s.data ≠ [] := by
  intro hd
  exact h (String.ext hd)

theorem escapeText_head (s : String) (hs : s ≠ "") :
    ∃ c cs, (escapeText s).data = c :: cs ∧ (c == cLt) = false := by
  have hd := string_ne_empty_data hs
  rcases he : s.data with _ | ⟨a, t⟩
  · exact absurd he hd
  have hflat : (escapeText s).data = (escChar a).data ++ t.flatMap (fun c => (escChar c).data) := by
    rw [escapeText_data, he, List.flatMap_cons]
  rcases hesc : (escChar a).data with _ | ⟨c, cs2⟩
  · exact absurd hesc (escChar_ne_nil a)
  refine ⟨c, cs2 ++ t.flatMap (fun c => (escChar c).data), ?_, ?_⟩
  · rw [hflat, hesc, List.cons_append]
  · exact escChar_no_lt a c (by rw [hesc]; exact List.mem_cons_self c cs2)

theorem tag_facts {t : String} (h : t ∈ allowedTags) :
    (∀ x ∈ t.data, isNameChar x = true) ∧ lcStr t.data = t ∧ t.data ≠ [] := by
  fin_cases h <;> exact ⟨by decide, by decide, by decide⟩

theorem nameChar_ne {c h : Char} (hn : isNameChar c = true) (hh : isNameChar h = false) :
    (c == h) = false := by
  cases hch : (c == h) with
  | false => rfl
  | true =>
    rw [beq_iff_eq] at hch
    subst hch
    rw [hn] at hh
    exact absurd hh (by simp)

theorem splitTexts_spec (f : HForest) :
    serializeForest f = escapeText (splitTexts f).1 ++ serializeForest (splitTexts f).2 ∧
    (forestOK f = true → forestOK (splitTexts f).2 = true) ∧
    ((splitTexts f).2 = HForest.nil ∨
      ∃ t a c f2, (splitTexts f).2 = HForest.cons (HNode.elem t a c) f2) := by
  refine @HForest.rec (fun _ => True)
    (fun f => serializeForest f = escapeText (splitTexts f).1 ++ serializeForest (splitTexts f).2 ∧
      (forestOK f = true → forestOK (splitTexts f).2 = true) ∧
      ((splitTexts f).2 = HForest.nil ∨
        ∃ t a c f2, (splitTexts f).2 = HForest.cons (HNode.elem t a c) f2)) ?_ ?_ ?_ ?_ f
  · intro s; trivial
  · intro tag attrs c _; trivial
  · refine ⟨?_, fun _ => rfl, Or.inl rfl⟩
    rw [show splitTexts HForest.nil = ("", HForest.nil) from rfl]
    rw [escapeText_empty, string_empty_append]
  · intro n f2 _ ihf
    cases n with
    | text s =>
      obtain ⟨ih1, ih2, ih3⟩ := ihf
      refine ⟨?_, ?_, ?_⟩
      · rw [show splitTexts (HForest.cons (HNode.text s) f2) =
          (s ++ (splitTexts f2).1, (splitTexts f2).2) from rfl]
        rw [serializeForest_cons, show serializeNode (HNode.text s) = escapeText s from rfl,
          ih1, escapeText_append, String.append_assoc]
      · intro hok
        rw [show forestOK (HForest.cons (HNode.text s) f2) =
          (nodeOK (HNode.text s) && forestOK f2) from rfl,
          show nodeOK (HNode.text s) = true from rfl, Bool.true_and] at hok
        exact ih2 hok
      · exact ih3
    | elem t a c =>
      refine ⟨?_, fun hok => hok, Or.inr ⟨t, a, c, f2, rfl⟩⟩
      rw [show splitTexts (HForest.cons (HNode.elem t a c) f2) =
        ("", HForest.cons (HNode.elem t a c) f2) from rfl]
      rw [escapeText_empty, string_empty_append]

theorem parse_nil_none (k : Nat) : parseNodesAux (k + 1) [] none = (.nil, []) := rfl

theorem parse_close (k : Nat) {st : String} (hst : st ∈ allowedTags) (rest : List Char) :
    parseNodesAux (k + 1) (cLt :: (cSlash :: (st.data ++ (cGt :: rest)))) (some st) =
      (.nil, rest) := by
  obtain ⟨hchars, hlc, hne⟩ := tag_facts hst
  have hnm : (st.data ++ (cGt :: rest)).takeWhile isNameChar = st.data := by
    rw [takeWhile_append_all _ hchars, List.takeWhile_cons]
    simp [show isNameChar cGt = false from by decide]
  have hr1 : (st.data ++ (cGt :: rest)).dropWhile isNameChar = cGt :: rest := by
    rw [dropWhile_append_all _ hchars, List.dropWhile_cons]
    simp [show isNameChar cGt = false from by decide]
  have hdw : (cGt :: rest).dropWhile (fun x => !(x == cGt)) = cGt :: rest := by
    rw [List.dropWhile_cons]
    simp
  simp only [parseNodesAux, beq_self_eq_true, if_true, hnm, hr1, hdw,
    List.drop_succ_cons, List.drop_zero, hlc]

theorem string_mk_data (s : String) : String.mk s.data = s := rfl

theorem parse_text_step (k : Nat) (s : String) (hs : s ≠ "") (D : List Char)
    (stop : Option String) (hD : D = [] ∨ ∃ es, D = cLt :: es) :
    parseNodesAux (k + 1) ((escapeText s).data ++ D) stop =
      (HForest.cons (HNode.text s) (parseNodesAux k D stop).1,
        (parseNodesAux k D stop).2) := by
  obtain ⟨c, cs2, hEd, hclt⟩ := escapeText_head s hs
  have hpred : ∀ x ∈ (escapeText s).data, (!(x == cLt)) = true := by
    intro x hx
    rw [escapeText_no_lt s x hx]
    rfl
  have htw : ((escapeText s).data ++ D).takeWhile (fun x => !(x == cLt)) =
      (escapeText s).data := by
    rw [takeWhile_append_all _ hpred]
    rcases hD with h | ⟨es, h⟩
    · rw [h]; simp
    · rw [h, List.takeWhile_cons]
      simp
  have hdw : ((escapeText s).data ++ D).dropWhile (fun x => !(x == cLt)) = D := by
    rw [dropWhile_append_all _ hpred]
    rcases hD with h | ⟨es, h⟩
    · rw [h]; simp
    · rw [h, List.dropWhile_cons]
      simp
  have hval : String.mk (unescapeChars ((escapeText s).data.length + 1)
      (escapeText s).data) = s := by
    rw [escapeText_data, unescape_escapeText s.data _ (by
      rw [← escapeText_data]; omega)]
  rw [hEd] at htw hdw ⊢
  rw [List.cons_append]
  simp only [parseNodesAux, hclt, Bool.false_eq_true, if_false, ← List.cons_append, htw, hdw]
  rw [← hEd, hval]

theorem attrsString_head (a : List (String × String)) (R : List Char) :
    ∃ e es, (attrsString a).data ++ (cGt :: R) = e :: es ∧ isNameChar e = false := by
  cases a with
  | nil => exact ⟨cGt, R, rfl, by decide⟩
  | cons p l =>
    refine ⟨' ', p.1.data ++ (strEqQuot.data ++ ((escapeAttr p.2).data ++
      (strQuot.data ++ ((attrsString l).data ++ (cGt :: R))))), ?_, by decide⟩
    rw [attrsString_cons]
    simp [attrPiece, String.data_append, List.append_assoc,
      show strSpace.data = [' '] from by decide]

theorem parse_elem_step_void (k : Nat) {t : String} (ht : t ∈ allowedTags)
    (hv : t ∈ voidTags) (a : List (String × String))
    (hafix : a.all (fun p => decide (keepAttr p = some p)) = true)
    (BODY : List Char) (stop : Option String) (sibs : HForest) (r3 : List Char)
    (hfu : (attrsString a).data.length + 1 + BODY.length < k)
    (hP : parseNodesAux k BODY stop = (sibs, r3)) :
    parseNodesAux (k + 1) (cLt :: (t.data ++ ((attrsString a).data ++ (cGt :: BODY)))) stop =
      (HForest.cons (HNode.elem t a HForest.nil) sibs, r3) := by
  obtain ⟨hchars, hlc, hne⟩ := tag_facts ht
  obtain ⟨e, es, hees, hene⟩ := attrsString_head a BODY
  rcases hd : t.data with _ | ⟨d, dt⟩
  · exact absurd hd hne
  have hdmem : d ∈ t.data := by rw [hd]; exact List.mem_cons_self d dt
  have hdname : isNameChar d = true := hchars d hdmem
  have hdsl : (d == cSlash) = false := nameChar_ne hdname (by decide)
  have hdbg : (d == cBang) = false := nameChar_ne hdname (by decide)
  have hnm : (t.data ++ ((attrsString a).data ++ (cGt :: BODY))).takeWhile isNameChar =
      t.data := by
    rw [hees, takeWhile_append_all _ hchars, List.takeWhile_cons]
    simp [hene]
  have hr1 : (t.data ++ ((attrsString a).data ++ (cGt :: BODY))).dropWhile isNameChar =
      (attrsString a).data ++ (cGt :: BODY) := by
    rw [hees, dropWhile_append_all _ hchars, List.dropWhile_cons]
    simp [hene]
  have hread : readAttrs k ((attrsString a).data ++ (cGt :: BODY)) = (a, BODY, false) :=
    readAttrs_roundtrip a k BODY hafix hfu
  have hvd : decide (t ∈ voidTags) = true := by
    simp [hv]
  rw [show t.data ++ ((attrsString a).data ++ (cGt :: BODY)) =
      d :: (dt ++ ((attrsString a).data ++ (cGt :: BODY))) from by
    rw [hd, List.cons_append]] at hnm hr1
  simp only [List.cons_append, parseNodesAux, beq_self_eq_true, if_true, hdsl, hdbg,
    Bool.false_eq_true, if_false, hdname, hnm, hr1, hread, Bool.false_or, hvd, hP, hlc]

theorem parse_elem_step_nonvoid (k : Nat) {t : String} (ht : t ∈ allowedTags)
    (hv : t ∉ voidTags) (a : List (String × String))
    (hafix : a.all (fun p => decide (keepAttr p = some p)) = true)
    (BODY : List Char) (stop : Option String)
    (children sibs : HForest) (r3 r4 : List Char)
    (hfu : (attrsString a).data.length + 1 + BODY.length < k)
    (hC : parseNodesAux k BODY (some t) = (children, r3))
    (hS : parseNodesAux k r3 stop = (sibs, r4)) :
    parseNodesAux (k + 1) (cLt :: (t.data ++ ((attrsString a).data ++ (cGt :: BODY)))) stop =
      (HForest.cons (HNode.elem t a children) sibs, r4) := by
  obtain ⟨hchars, hlc, hne⟩ := tag_facts ht
  obtain ⟨e, es, hees, hene⟩ := attrsString_head a BODY
  rcases hd : t.data with _ | ⟨d, dt⟩
  · exact absurd hd hne
  have hdmem : d ∈ t.data := by rw [hd]; exact List.mem_cons_self d dt
  have hdname : isNameChar d = true := hchars d hdmem
  have hdsl : (d == cSlash) = false := nameChar_ne hdname (by decide)
  have hdbg : (d == cBang) = false := nameChar_ne hdname (by decide)
  have hnm : (t.data ++ ((attrsString a).data ++ (cGt :: BODY))).takeWhile isNameChar =
      t.data := by
    rw [hees, takeWhile_append_all _ hchars, List.takeWhile_cons]
    simp [hene]
  have hr1 : (t.data ++ ((attrsString a).data ++ (cGt :: BODY))).dropWhile isNameChar =
      (attrsString a).data ++ (cGt :: BODY) := by
    rw [hees, dropWhile_append_all _ hchars, List.dropWhile_cons]
    simp [hene]
  have hread : readAttrs k ((attrsString a).data ++ (cGt :: BODY)) = (a, BODY, false) :=
    readAttrs_roundtrip a k BODY hafix hfu
  have hvd : decide (t ∈ voidTags) = false := by
    simp [hv]
  rw [show t.data ++ ((attrsString a).data ++ (cGt :: BODY)) =
      d :: (dt ++ ((attrsString a).data ++ (cGt :: BODY))) from by
    rw [hd, List.cons_append]] at hnm hr1
  simp only [List.cons_append, parseNodesAux, beq_self_eq_true, if_true, hdsl, hdbg,
    Bool.false_eq_true, if_false, hdname, hnm, hr1, hread, Bool.false_or, hvd, hlc, hC, hS]

theorem ser_elem_head (t : String) (a : List (String × String)) (c : HForest)
    (f2 : HForest) : ∃ es,
    (serializeForest (HForest.cons (HNode.elem t a c) f2)).data = cLt :: es := by
  rw [serializeForest_cons]
  simp only [serializeNode]
  split_ifs with h
  · exact ⟨(t.data ++ ((attrsString a).data ++ (strGt.data ++ (serializeForest f2).data))), by
      simp [String.data_append, List.append_assoc, show strLt.data = [cLt] from by decide]⟩
  · exact ⟨(t.data ++ ((attrsString a).data ++ (strGt.data ++ ((serializeForest c).data ++
      (strLtSlash.data ++ (t.data ++ (strGt.data ++ (serializeForest f2).data))))))), by
      simp [String.data_append, List.append_assoc, show strLt.data = [cLt] from by decide]⟩

theorem parse_ser_roundtrip : ∀ (fuel : Nat) (f : HForest) (stop : Option String)
    (tail out : List Char),
    forestOK f = true →
    ((stop = none ∧ tail = [] ∧ out = []) ∨
      (∃ st rest, stop = some st ∧ st ∈ allowedTags ∧
        tail = cLt :: (cSlash :: (st.data ++ (cGt :: rest))) ∧ out = rest)) →
    (serializeForest f).data.length + tail.length < fuel →
    ∃ h, parseNodesAux fuel ((serializeForest f).data ++ tail) stop = (h, out) ∧
      forestOK h = true ∧ serializeForest h = serializeForest f := by
  intro fuel
  induction fuel using Nat.strong_induction_on with
  | _ fuel ih =>
  intro f stop tail out hok hspec hfuel
  rcases fuel with _ | k
  · omega
  obtain ⟨hser, hokImp, hshape⟩ := splitTexts_spec f
  have hokF : forestOK (splitTexts f).2 = true := hokImp hok
  by_cases hs : (splitTexts f).1 = ""
  · have hserf : serializeForest f = serializeForest (splitTexts f).2 := by
      rw [hser, hs, escapeText_empty, string_empty_append]
    rcases hshape with hnil | ⟨t, a, c, f2, helem⟩
    · have hser0 : serializeForest f = "" := by rw [hserf, hnil]; rfl
      have hdat0 : (serializeForest f).data = [] := by rw [hser0]
      rcases hspec with ⟨hstop, htail, hout⟩ | ⟨st, rest, hstop, hst, htail, hout⟩
      · subst hstop; subst htail; subst hout
        exact ⟨HForest.nil, by rw [hdat0, List.nil_append]; exact parse_nil_none k, rfl,
          by rw [hser0]; rfl⟩
      · subst hstop; subst htail
        exact ⟨HForest.nil, by
          rw [hout, hdat0, List.nil_append]; exact parse_close k hst rest, rfl,
          by rw [hser0]; rfl⟩
    · have hokE := hokF
      rw [helem] at hokE hserf
      simp only [forestOK, nodeOK, Bool.and_eq_true, decide_eq_true_eq] at hokE
      obtain ⟨⟨⟨ht, hafix⟩, hokc⟩, hokf2⟩ := hokE
      obtain ⟨hchars, hlc, hne⟩ := tag_facts ht
      have htpos : 0 < t.data.length := List.length_pos.mpr hne
      by_cases hvd : t ∈ voidTags
      · have hdata : (serializeForest f).data ++ tail =
            cLt :: (t.data ++ ((attrsString a).data ++
              (cGt :: ((serializeForest f2).data ++ tail)))) := by
          rw [hserf, serializeForest_cons]
          simp [serializeNode, hvd, String.data_append, List.append_assoc,
            show strLt.data = [cLt] from by decide,
            show strGt.data = [cGt] from by decide]
        have hlenEq := congrArg List.length hdata
        simp only [List.length_append, List.length_cons] at hlenEq
        have hfuA : (attrsString a).data.length + 1 +
            ((serializeForest f2).data ++ tail).length < k := by
          rw [List.length_append]
          omega
        have hfuS : (serializeForest f2).data.length + tail.length < k := by omega
        obtain ⟨h2, hP2, hok2, hser2⟩ :=
          ih k (Nat.lt_succ_self k) f2 stop tail out hokf2 hspec hfuS
        refine ⟨HForest.cons (HNode.elem t a HForest.nil) h2, ?_, ?_, ?_⟩
        · rw [hdata]
          exact parse_elem_step_void k ht hvd a hafix
            ((serializeForest f2).data ++ tail) stop h2 out hfuA hP2
        · simp [forestOK, nodeOK, ht, hafix, hok2]
        · rw [serializeForest_cons, hser2, hserf, serializeForest_cons]
          congr 1
          simp [serializeNode, hvd]
      · have hdata : (serializeForest f).data ++ tail =
            cLt :: (t.data ++ ((attrsString a).data ++ (cGt :: ((serializeForest c).data ++
              (cLt :: (cSlash :: (t.data ++ (cGt :: ((serializeForest f2).data ++ tail))))))))) := by
          rw [hserf, serializeForest_cons]
          simp [serializeNode, hvd, String.data_append, List.append_assoc,
            show strLt.data = [cLt] from by decide,
            show strGt.data = [cGt] from by decide,
            show strLtSlash.data = [cLt, cSlash] from by decide]
        have hlenEq := congrArg List.length hdata
        simp only [List.length_append, List.length_cons] at hlenEq
        have hfuC : (serializeForest c).data.length +
            (cLt :: (cSlash :: (t.data ++ (cGt :: ((serializeForest f2).data ++ tail))))).length
              < k := by
          simp only [List.length_append, List.length_cons]
          omega
        have hfuS : (serializeForest f2).data.length + tail.length < k := by omega
        have hfuA : (attrsString a).data.length + 1 + ((serializeForest c).data ++
            (cLt :: (cSlash :: (t.data ++ (cGt :: ((serializeForest f2).data ++ tail)))))).length
              < k := by
          simp only [List.length_append, List.length_cons]
          omega
        obtain ⟨hc, hPc, hokc2, hserc2⟩ := ih k (Nat.lt_succ_self k) c (some t)
          (cLt :: (cSlash :: (t.data ++ (cGt :: ((serializeForest f2).data ++ tail)))))
          ((serializeForest f2).data ++ tail) hokc
          (Or.inr ⟨t, (serializeForest f2).data ++ tail, rfl, ht, rfl, rfl⟩) hfuC
        obtain ⟨h2, hP2, hok2, hser2⟩ :=
          ih k (Nat.lt_succ_self k) f2 stop tail out hokf2 hspec hfuS
        refine ⟨HForest.cons (HNode.elem t a hc) h2, ?_, ?_, ?_⟩
        · rw [hdata]
          exact parse_elem_step_nonvoid k ht hvd a hafix _ stop hc h2 _ out hfuA hPc hP2
        · simp [forestOK, nodeOK, ht, hafix, hokc2, hok2]
        · rw [serializeForest_cons, hser2, hserf, serializeForest_cons]
          congr 1
          simp [serializeNode, hvd, hserc2]
  · have hD : ((serializeForest (splitTexts f).2).data ++ tail) = [] ∨
        ∃ es, ((serializeForest (splitTexts f).2).data ++ tail) = cLt :: es := by
      rcases hshape with hnil | ⟨t, a, c, f2, helem⟩
      · rw [hnil]
        rcases hspec with ⟨_, htail, _⟩ | ⟨st, rest, _, _, htail, _⟩
        · left; rw [htail]; rfl
        · right; exact ⟨cSlash :: (st.data ++ (cGt :: rest)), by rw [htail]; rfl⟩
      · right
        rw [helem]
        obtain ⟨es, hes⟩ := ser_elem_head t a c f2
        exact ⟨es ++ tail, by rw [hes, List.cons_append]⟩
    have hescpos : 0 < (escapeText (splitTexts f).1).data.length := by
      obtain ⟨c0, cs0, hE, _⟩ := escapeText_head _ hs
      rw [hE]
      simp
    have hlenEq : (serializeForest f).data.length =
        (escapeText (splitTexts f).1).data.length +
          (serializeForest (splitTexts f).2).data.length := by
      rw [hser, String.data_append, List.length_append]
    have hfu2 : (serializeForest (splitTexts f).2).data.length + tail.length < k := by omega
    obtain ⟨h2, hP2, hok2, hser2⟩ :=
      ih k (Nat.lt_succ_self k) (splitTexts f).2 stop tail out hokF hspec hfu2
    have hinput : (serializeForest f).data ++ tail =
        (escapeText (splitTexts f).1).data ++
          ((serializeForest (splitTexts f).2).data ++ tail) := by
      rw [hser, String.data_append, List.append_assoc]
    refine ⟨HForest.cons (HNode.text (splitTexts f).1) h2, ?_, ?_, ?_⟩
    · rw [hinput, parse_text_step k _ hs _ stop hD, hP2]
    · simp [forestOK, nodeOK, hok2]
    · rw [serializeForest_cons, hser2, hser]
      rfl

theorem parse_of_serialize {f : HForest} (hok : forestOK f = true) :
    forestOK (parseHTML (serializeForest f)) = true ∧
    serializeForest (parseHTML (serializeForest f)) = serializeForest f := by
  have hb : (serializeForest f).data.length + ([] : List Char).length <
      (serializeForest f).data.length * 2 + 16 := by
    simp
    omega
  obtain ⟨h, hP, hok2, hser2⟩ := parse_ser_roundtrip
    ((serializeForest f).length * 2 + 16) f none [] [] hok (Or.inl ⟨rfl, rfl, rfl⟩) hb
  rw [List.append_nil] at hP
  have hPH : parseHTML (serializeForest f) = h := by
    unfold parseHTML
    rw [hP]
  rw [hPH]
  exact ⟨hok2, hser2⟩

theorem sanitizeHTML_idem (x : String) :
    sanitizeHTML (sanitizeHTML x) = sanitizeHTML x := by
  obtain ⟨hok2, hser2⟩ :=
    parse_of_serialize (forestOK_sanitize (parseHTML x))
  show serializeForest (sanitizeForest (parseHTML
    (serializeForest (sanitizeForest (parseHTML x))))) =
    serializeForest (sanitizeForest (parseHTML x))
  rw [sanitizeForest_fixed hok2, hser2]

theorem sanitizeHTML_parse_safe (x : String) :
    forestSafe (parseHTML (sanitizeHTML x)) = true :=
  forestSafe_of_ok (parse_of_serialize (forestOK_sanitize (parseHTML x))).1

/-- Claim C3: sanitize (sanitizeHTML, the string-to-string composition of
parsing, the DOMPurify tree pass, and serialization) is idempotent as a pure
function on strings: sanitizing an already sanitized string changes nothing.
And its output is safe for every input string: parsing the output yields a
document with no script element, no iframe element, and no attribute whose
name starts with on. -/
theorem C3_sanitize_idempotent_safe (x : String) :
    sanitizeHTML (sanitizeHTML x) = sanitizeHTML x ∧
    forestSafe (parseHTML (sanitizeHTML x)) = true :=
  ⟨sanitizeHTML_idem x, sanitizeHTML_parse_safe x⟩
